import Mathlib

/-!
Verification of the text-layout and canvas-rendering engine of the
`keethesh/keethesh` profile repository.

The development shallowly embeds the three rendering backends:

* `AsciiEngine` — `.github/scripts/ascii_engine.py` (wcwidth-aware text canvas);
* `ScriptsRenderChat` — `scripts/render_chat.py` (character-count text canvas);
* `HtmlEngine` — `.github/scripts/html_engine.py` (markup backend).

Machine integers are `Nat`/`Int`; Python exceptions are `Except`; the
`datetime.now()` calls and the `dateutil` timestamp parser are injected as
explicit parameters so that the embedded functions are pure.
-/

set_option maxRecDepth 10000
set_option maxHeartbeats 1000000

namespace ReadmeChat

/-! ## Width measurer: model of the `wcwidth` library

`ascii_engine.py` measures display columns with `wcwidth.wcswidth`.  The
library assigns each code point a column width: 0 for NUL and zero-width
combining marks, -1 for other C0/C1 control characters, 2 for wide East-Asian
and emoji code points, 1 otherwise.  `wcwidthChar` reproduces those tables
over the Unicode ranges relevant to this repository (ASCII, box drawing,
ellipsis, CJK, the emoji used by the renderers, combining marks); code points
outside the listed wide/zero ranges measure 1, exactly as the library's
fallback does. -/

/-- Wide (2-column) code points: the East-Asian-Wide / emoji ranges of the
`wcwidth` tables that cover every character appearing in this repository. -/
def isWideCodepoint (n : Nat) : Bool :=
  (0x1100 ≤ n && n ≤ 0x115F) ||
  (0x2E80 ≤ n && n ≤ 0x303E) ||
  (0x3041 ≤ n && n ≤ 0x33FF) ||
  (0x3400 ≤ n && n ≤ 0x4DBF) ||
  (0x4E00 ≤ n && n ≤ 0x9FFF) ||
  (0xA000 ≤ n && n ≤ 0xA4CF) ||
  (0xA960 ≤ n && n ≤ 0xA97F) ||
  (0xAC00 ≤ n && n ≤ 0xD7A3) ||
  (0xF900 ≤ n && n ≤ 0xFAFF) ||
  (0xFE10 ≤ n && n ≤ 0xFE19) ||
  (0xFE30 ≤ n && n ≤ 0xFE52) ||
  (0xFE54 ≤ n && n ≤ 0xFE66) ||
  (0xFE68 ≤ n && n ≤ 0xFE6B) ||
  (0xFF00 ≤ n && n ≤ 0xFF60) ||
  (0xFFE0 ≤ n && n ≤ 0xFFE6) ||
  (0x26AA ≤ n && n ≤ 0x26AB) ||
  (0x1F300 ≤ n && n ≤ 0x1F64F) ||
  (0x1F680 ≤ n && n ≤ 0x1F6FF) ||
  (0x1F7E0 ≤ n && n ≤ 0x1F7EB) ||
  (0x1F900 ≤ n && n ≤ 0x1F9FF) ||
  (0x20000 ≤ n && n ≤ 0x2FFFD) ||
  (0x30000 ≤ n && n ≤ 0x3FFFD)

/-- Zero-width code points (combining marks, zero-width spaces, variation
selectors), per the `wcwidth` zero-width table. -/
def isZeroWidthCodepoint (n : Nat) : Bool :=
  (0x0300 ≤ n && n ≤ 0x036F) ||
  (0x1AB0 ≤ n && n ≤ 0x1AFF) ||
  (0x1DC0 ≤ n && n ≤ 0x1DFF) ||
  (0x200B ≤ n && n ≤ 0x200F) ||
  (0x202A ≤ n && n ≤ 0x202E) ||
  (0x2060 ≤ n && n ≤ 0x2064) ||
  (0x20D0 ≤ n && n ≤ 0x20FF) ||
  (0xFE00 ≤ n && n ≤ 0xFE0F) ||
  (0xFE20 ≤ n && n ≤ 0xFE2F)

/-- Column width of one code point, as `wcwidth.wcwidth`: 0 for NUL,
-1 for other C0/C1 controls, 0 for zero-width marks, 2 for wide, else 1. -/
def wcwidthChar (c : Char) : Int :=
  let n := c.toNat
  if n = 0 then 0
  else if n < 0x20 || (0x7F ≤ n && n < 0xA0) then -1
  else if isZeroWidthCodepoint n then 0
  else if isWideCodepoint n then 2
  else 1

/-- `wcwidth.wcswidth` over a character list: -1 as soon as some character is
unprintable, otherwise the sum of the character widths. -/
def wcswidthList : List Char → Int
  | [] => 0
  | c :: cs =>
    let w := wcwidthChar c
    if w < 0 then -1
    else
      let rest := wcswidthList cs
      if rest < 0 then -1 else w + rest

/-- `wcwidth.wcswidth` on a string. -/
def wcswidth (s : String) : Int := wcswidthList s.data

end ReadmeChat

namespace ReadmeChat.Py

/-! ## Python string primitives shared by the engines -/

/-- The characters of Python `string.whitespace`, used by `str.strip()`,
`str.split()` and `textwrap`'s whitespace handling (the rare non-ASCII
Unicode spaces are not used anywhere in this repository). -/
def pyIsSpace (c : Char) : Bool :=
  c = ' ' || c = '\t' || c = '\n' || c = '\x0d' || c = '\x0b' || c = '\x0c'

/-- Python `str.strip()` on a character list. -/
def pyStripChars (l : List Char) : List Char :=
  ((l.dropWhile pyIsSpace).reverse.dropWhile pyIsSpace).reverse

/-- Python `str.strip()`. -/
def pyStrip (s : String) : String := String.mk (pyStripChars s.data)

/-- Python `" " * n` (and `"c" * n` generally), empty for non-positive
counts. -/
def repChar (c : Char) (n : Int) : String := String.mk (List.replicate n.toNat c)

/-- `" " * n` for a `Nat` count. -/
def spaces (n : Nat) : String := String.mk (List.replicate n ' ')

/-- Python `str.split("\n")`: always at least one (possibly empty) field. -/
def splitNl : List Char → List (List Char)
  | [] => [[]]
  | c :: cs =>
    if c = '\n' then [] :: splitNl cs
    else
      match splitNl cs with
      | h :: t => (c :: h) :: t
      | [] => [[c]]

/-- Python `s.split("\n")` on a string. -/
def pySplitNl (s : String) : List String := (splitNl s.data).map String.mk

/-- Python `str.split()` with no argument: whitespace-delimited words,
empty fields dropped. -/
def pySplitWs (s : String) : List String :=
  (s.data.splitOnP pyIsSpace).map String.mk |>.filter (· ≠ "")

/-- Python `format(s, "<n")` (f-string `{s:<{n}}`): pad on the right with
spaces to `n` characters; strings at least `n` long are unchanged. -/
def ljust (s : String) (n : Nat) : String := s ++ spaces (n - s.length)

/-- Python `format(s, ">n")`: pad on the left with spaces to `n`
characters. -/
def rjust (s : String) (n : Nat) : String := spaces (n - s.length) ++ s

/-- An f-string `{s:<{w}}` whose width is a computed Python `int`: a negative
width makes the `-` parse as a sign in the format spec, which raises
`ValueError: Sign not allowed in string format specifier`. -/
def fmtL (s : String) (w : Int) : Except String String :=
  if w < 0 then .error "ValueError: Sign not allowed in string format specifier"
  else .ok (ljust s w.toNat)

/-- An f-string `{s:>{w}}` with a computed width; negative widths raise. -/
def fmtR (s : String) (w : Int) : Except String String :=
  if w < 0 then .error "ValueError: Sign not allowed in string format specifier"
  else .ok (rjust s w.toNat)

/-- Python slice `s[:n]` (take by code points). -/
def pyTake (s : String) (n : Nat) : String := String.mk (s.data.take n)

/-- Python slice `s[n:]` (drop by code points). -/
def pyDrop (s : String) (n : Nat) : String := String.mk (s.data.drop n)

/-- Python's substring test `pat in l` on character lists. -/
def pyInChars (pat : List Char) : List Char → Bool
  | [] => pat.isEmpty
  | c :: cs => pat.isPrefixOf (c :: cs) || pyInChars pat cs

/-- Python's substring test `pat in s` on strings. -/
def pyIn (pat s : String) : Bool := pyInChars pat.data s.data

/-- Python `s.replace(old, new)` on character lists, for non-empty `old`
(every call site of this development uses a non-empty pattern): leftmost,
non-overlapping replacement.  Each match consumes at least one character,
so the initial list length is always enough fuel. -/
def replaceF (pat rep : List Char) : Nat → List Char → List Char
  | 0, l => l
  | _ + 1, [] => []
  | fuel + 1, c :: cs =>
    if pat.isPrefixOf (c :: cs) then
      rep ++ replaceF pat rep fuel ((c :: cs).drop pat.length)
    else c :: replaceF pat rep fuel cs

/-- Python `s.replace(pat, rep)` (non-empty `pat`). -/
def pyReplace (s pat rep : String) : String :=
  String.mk (replaceF pat.data rep.data s.data.length s.data)

end ReadmeChat.Py

namespace ReadmeChat.PyTextwrap

open ReadmeChat.Py

/-! ## Model of `textwrap.wrap`

Both renderers delegate paragraph wrapping to Python's `textwrap` module.
The model reproduces `TextWrapper._munge_whitespace`, `_split`,
`_handle_long_word` and `_wrap_chunks` for the option combinations the two
call sites use (`drop_whitespace` is `True` at both call sites and is
hard-coded; `expand_tabs` is `False` at both).  `_split` is modelled as
splitting into maximal runs of whitespace / non-whitespace characters, which
agrees with `textwrap`'s `wordsep_re` for texts containing no hyphenated
words and no em-dashes; the hyphen handling of `_handle_long_word` is kept. -/

/-- The `textwrap` options that differ between the two call sites. -/
structure Opts where
  breakLongWords : Bool
  breakOnHyphens : Bool
  replaceWhitespace : Bool

/-- Options of `ascii_engine._create_message_bubble`'s call to
`textwrap.wrap` (`replace_whitespace=False, break_long_words=True,
break_on_hyphens=True`). -/
def asciiOpts : Opts := ⟨true, true, false⟩

/-- Options of `scripts/render_chat.py`'s `wrap_message` call
(`break_long_words=False, break_on_hyphens=False`, `replace_whitespace`
left at its default `True`). -/
def scriptsOpts : Opts := ⟨false, false, true⟩

/-- `_munge_whitespace`: with `replace_whitespace` the characters of
`string.whitespace` are each turned into a space. -/
def munge (opts : Opts) (s : String) : String :=
  if opts.replaceWhitespace then
    String.mk (s.data.map fun c => if pyIsSpace c then ' ' else c)
  else s

/-- Maximal runs of characters agreeing on `pyIsSpace` (the chunk list fed
to `_wrap_chunks`), with an explicit fuel: each step drops at least one
character, so the list length is always enough fuel. -/
def chunkRunsF : Nat → List Char → List (List Char)
  | 0, _ => []
  | _ + 1, [] => []
  | fuel + 1, c :: cs =>
    (c :: cs.takeWhile (fun x => pyIsSpace x == pyIsSpace c)) ::
      chunkRunsF fuel (cs.dropWhile (fun x => pyIsSpace x == pyIsSpace c))

/-- Maximal runs of characters agreeing on `pyIsSpace` (the chunk list fed
to `_wrap_chunks`). -/
def chunkRuns (l : List Char) : List (List Char) := chunkRunsF l.length l

/-- `_split` of the munged text. -/
def wordChunks (s : String) : List String := (chunkRuns s.data).map String.mk

/-- Sum of the lengths of the strings of a line under construction
(`textwrap`'s `cur_len`). -/
def sumLen (l : List String) : Nat := (l.map String.length).sum

/-- Python `chunk.rfind('-', 0, bound)`: the largest index `< bound` holding
a hyphen, if any. -/
def lastHyphenPos (l : List Char) (bound : Nat) : Option Nat :=
  ((l.take bound).reverse.findIdx? (· = '-')).map
    (fun j => (l.take bound).length - 1 - j)

/-- `TextWrapper._handle_long_word`: chop the head chunk to the space left
on the current line (preferring to break after an interior hyphen when
`break_on_hyphens`), or, without `break_long_words`, put the whole chunk on
a line of its own when the current line is empty. -/
def handleLongWord (opts : Opts) (width curLen : Nat)
    (chunks curLine : List String) : List String × List String :=
  match chunks with
  | [] => (chunks, curLine)
  | chunk :: rest =>
    let spaceLeft := if width < 1 then 1 else width - curLen
    if opts.breakLongWords then
      let endPos :=
        if opts.breakOnHyphens && decide (spaceLeft < chunk.length) then
          match lastHyphenPos chunk.data spaceLeft with
          | some h =>
            if 0 < h ∧ (chunk.data.take h).any (· ≠ '-') then h + 1 else spaceLeft
          | none => spaceLeft
        else spaceLeft
      (pyDrop chunk endPos :: rest, curLine ++ [pyTake chunk endPos])
    else if curLine = [] then (rest, curLine ++ [chunk])
    else (chunks, curLine)

/-- The greedy inner loop of `_wrap_chunks`: move chunks onto the current
line while the accumulated length stays within `width`.  Returns the
remaining chunks, the current line and its length. -/
def greedy (width : Nat) : List String → List String → Nat →
    List String × List String × Nat
  | [], cur, len => ([], cur, len)
  | c :: cs, cur, len =>
    if len + c.length ≤ width then greedy width cs (cur ++ [c]) (len + c.length)
    else (c :: cs, cur, len)

/-- `drop_whitespace` removal of a trailing all-whitespace chunk from the
current line. -/
def dropTrailingWs (cur : List String) : List String :=
  match cur.getLast? with
  | some lst => if pyStrip lst = "" then cur.dropLast else cur
  | none => cur

/-- One iteration of the outer loop of `_wrap_chunks` after the
leading-whitespace drop: run the greedy loop, handle an over-long head
chunk, drop a trailing whitespace chunk.  Returns the remaining chunks and
the finished current line. -/
def oneLine (opts : Opts) (width : Nat) (chunks1 : List String) :
    List String × List String :=
  let g := greedy width chunks1 [] 0
  match g.1 with
  | d :: _ =>
    if width < d.length then
      let hl := handleLongWord opts width g.2.2 g.1 g.2.1
      (hl.1, dropTrailingWs hl.2)
    else (g.1, dropTrailingWs g.2.1)
  | [] => (g.1, dropTrailingWs g.2.1)

/-- The outer loop of `_wrap_chunks` (with `drop_whitespace=True` and empty
indents, as at both call sites).  `fuel` bounds the number of outer
iterations; `wrapChunks` below supplies more fuel than any input can
consume. -/
def wrapLoop (opts : Opts) (width : Nat) :
    Nat → List String → List String → List String
  | 0, _, lines => lines
  | _ + 1, [], lines => lines
  | fuel + 1, c :: cs, lines =>
    let chunks1 := if pyStrip c = "" ∧ lines ≠ [] then cs else c :: cs
    let ol := oneLine opts width chunks1
    let lines2 := if ol.2 = [] then lines else lines ++ [String.join ol.2]
    wrapLoop opts width fuel ol.1 lines2

/-- `_wrap_chunks` with ample fuel. -/
def wrapChunks (opts : Opts) (chunks : List String) (width : Nat) :
    List String :=
  wrapLoop opts width (2 * sumLen chunks + chunks.length + 2) chunks []

/-- `textwrap.wrap(text, width, ...)` for the option combinations used by
the repository. -/
def wrap (opts : Opts) (text : String) (width : Nat) : List String :=
  wrapChunks opts (wordChunks (munge opts text)) width

end ReadmeChat.PyTextwrap

namespace ReadmeChat.AsciiEngine

open ReadmeChat.Py ReadmeChat.PyTextwrap

/-! ## `.github/scripts/ascii_engine.py`

The engine's two `datetime.datetime.now()` reads are injected as the already
formatted strings `headerTime` (`%H:%M:%S`, read in `create_header`) and
`bubbleTime` (`%H:%M`, read once per `_create_message_bubble` call). -/

/-- `visual_width`: `wcswidth`, falling back to the code-point count when
`wcswidth` is zero or negative (Python's `width if width and width > 0 else
len(txt)`). -/
def visual_width (txt : String) : Nat :=
  let w := wcswidth txt
  if 0 < w then w.toNat else txt.length

/-- The ellipsis glyph appended by `_clip` (display width 1). -/
def ellipsis : String := "…"

/-- The truncation loop of `_clip`: extend `acc` by the next character as
long as `acc`, the character and the ellipsis still fit in `width`. -/
def clipLoop (width : Int) : List Char → String → String
  | [], acc => acc
  | c :: cs, acc =>
    if (visual_width (acc.push c ++ ellipsis) : Int) > width then acc
    else clipLoop width cs (acc.push c)

/-- The truncation arm of `_clip`: keep the fitting text, append the
ellipsis, then pad the remaining slack with spaces. -/
def clipTrunc (truncated : String) (width : Int) : String :=
  truncated ++ ellipsis ++
    spaces (width - (visual_width (truncated ++ ellipsis) : Int)).toNat

/-- `_clip(txt, width)`: pad to, or truncate (with an ellipsis) to, visual
width `width`. -/
def _clip (txt : String) (width : Int) : String :=
  if (visual_width txt : Int) ≤ width then
    txt ++ spaces (width - visual_width txt).toNat
  else if 1 ≤ width then clipTrunc (clipLoop width txt.data "") width
  else ""

/-- `_ChatCanvas._border`. -/
def _border (width : Int) (c : Char) : String := "+" ++ repChar c (width - 2) ++ "+"

/-- The `meta` string of `create_header` (its `current_time:%H:%M:%S` field
injected as `t`). -/
def headerMeta (t : String) (participantCount : Nat) : String :=
  if participantCount = 0 then
    "Session: " ++ t ++
      " | Ready for connections | Projects: 3 active | Status: Building [ACTIVE]"
  else if participantCount = 1 then
    "Active: " ++ t ++
      " | 1 contributor online | Mode: Development | Stack: Python+TS+Unity"
  else
    "Live chat: " ++ t ++ " | " ++ toString participantCount ++
      " users | Collaboration mode | All welcome!"

/-- The `welcome_line` of `create_header`. -/
def welcomeLine (participantCount : Nat) : String :=
  if participantCount = 0 then
    "keethesh@github:~/readme-chat (main)$ # Welcome! Start a conversation..."
  else if participantCount = 1 then
    "keethesh@github:~/readme-chat (main)$ # Building in public - join the discussion!"
  else
    "keethesh@github:~/readme-chat (main)$ # " ++ toString participantCount ++
      " contributors collaborating"

/-- `_ChatCanvas.create_header`. -/
def create_header (width : Int) (title headerTime : String)
    (participantCount : Nat) : List String :=
  [ _border width '-',
    "|" ++ _clip ("[_] [^] [X] " ++ ("Terminal - " ++ title)) (width - 2) ++ "|",
    "|" ++ _clip (headerMeta headerTime participantCount) (width - 2) ++ "|",
    _border width '-',
    _clip (welcomeLine participantCount) width ]

/-- `_ChatCanvas.create_footer`. -/
def create_footer (width : Int) (issueNumber : String) : List String :=
  [ _clip ("=== Live Terminal Session === Connected to Issue #" ++ issueNumber ++
      " === Share ideas, ask questions, collaborate ===") width,
    _clip "keethesh@github:~/readme-chat (main)$ echo \x27Your voice matters - join the conversation!\x27" width,
    _clip "keethesh@github:~/readme-chat (main)$ _" width,
    _border width '-' ]

/-- The owner / non-owner `base_prompt` of `_create_message_bubble`
(`currentTime` is the injected `datetime.now().strftime("%H:%M")`). -/
def basePrompt (currentTime username : String) (isOwner : Bool) : String :=
  if isOwner then
    "[" ++ currentTime ++ "] " ++ username ++ "@github:~/readme-chat (main)$ # "
  else
    "[" ++ currentTime ++ "] " ++ username ++ "@github:~$ # "

/-- The paragraph-wrapping loop of `_create_message_bubble`: blank
paragraphs are preserved as single empty lines, other paragraphs are
stripped and wrapped at `available` columns. -/
def wrapParagraphs (content : String) (available : Nat) : List String :=
  (pySplitNl content).flatMap fun paragraph =>
    if pyStrip paragraph = "" then [""]
    else wrap asciiOpts (pyStrip paragraph) available

/-- The `max_lines` truncation step of `_create_message_bubble`. -/
def truncateWrapped (wrapped : List String) (maxLines : Nat)
    (issueNumber : String) : List String :=
  if maxLines < wrapped.length then
    wrapped.take (maxLines - 1) ++
      ["[… see more at Issue #" ++ issueNumber ++ "] <typing…>"]
  else wrapped

/-- `_create_message_bubble`.  The `_timestamp` argument is kept for
signature compatibility with the Python function, which likewise ignores it
("unused after refactor"). -/
def _create_message_bubble (content username _timestamp : String)
    (isOwner : Bool) (chatWidth : Int) (maxLines : Nat) (issueNumber : String)
    (currentTime : String) : List String :=
  let prompt := basePrompt currentTime username isOwner
  let promptWidth : Int := visual_width prompt
  let available : Int := max 1 (chatWidth - promptWidth)
  let wrapped := truncateWrapped (wrapParagraphs content available.toNat)
    maxLines issueNumber
  let contPrompt := ">" ++ spaces (promptWidth - 1).toNat
  wrapped.enum.map fun p =>
    _clip ((if p.1 = 0 then prompt else contPrompt) ++ p.2) chatWidth

/-- One comment dictionary of the GitHub API, restricted to the keys the
ascii engine reads (`c["user"]["login"]`, `c["body"]`,
`c.get("created_at", "")`, `c.get("is_owner", False)`). -/
structure Comment where
  login : String
  body : String
  created_at : String
  is_owner : Bool
deriving DecidableEq

/-- `len({c["user"]["login"] for c in comments})` (0 for no comments). -/
def participantCount (comments : List Comment) : Nat :=
  ((comments.map Comment.login).eraseDups).length

/-- The empty-state block of `create_chat_interface`. -/
def emptyStateLines (chatWidth : Int) : List String :=
  [ _clip "keethesh@github:~/readme-chat (main)$ # Welcome to the community chat!" chatWidth,
    _clip "> This terminal connects to live GitHub Issue discussions" chatWidth,
    _clip "> Share ideas, ask questions, collaborate on projects" chatWidth,
    _clip "" chatWidth,
    _clip "keethesh@github:~/readme-chat (main)$ git status" chatWidth,
    _clip "On branch main" chatWidth,
    _clip "Your branch is up to date with \x27origin/main\x27." chatWidth,
    _clip "" chatWidth,
    _clip "keethesh@github:~/readme-chat (main)$ ls -la projects/" chatWidth,
    _clip "drwxr-xr-x  LookbackAI/     # AI-powered video journal SaaS" chatWidth,
    _clip "drwxr-xr-x  Planify/        # Motion-style task planner" chatWidth,
    _clip "drwxr-xr-x  MergeFleet/     # Unity space armada game" chatWidth,
    _clip "" chatWidth,
    _clip "keethesh@github:~/readme-chat (main)$ echo \x27Join the conversation!\x27" chatWidth,
    _clip "Join the conversation!" chatWidth ]

/-- The project-context block emitted above a sole message. -/
def singleContextLines (chatWidth : Int) : List String :=
  [ _clip "keethesh@github:~/readme-chat (main)$ whoami" chatWidth,
    _clip "keethesh - Polymathic builder, CISSP, AI enthusiast" chatWidth,
    _clip "" chatWidth,
    _clip "keethesh@github:~/readme-chat (main)$ cat recent_activity.log" chatWidth,
    _clip "- Building LookbackAI: 94% facial recognition accuracy" chatWidth,
    _clip "- Developing Planify: skin-in-the-game productivity" chatWidth,
    _clip "- Prototyping MergeFleet: Unity mobile space strategy" chatWidth,
    _clip "" chatWidth ]

/-- The engagement block emitted after the messages when there are at most
two comments. -/
def engagementLines (chatWidth : Int) : List String :=
  [ _clip "" chatWidth,
    _clip "keethesh@github:~/readme-chat (main)$ ps aux | grep inspiration" chatWidth,
    _clip "Currently seeking: collaborators, feedback, interesting problems" chatWidth,
    _clip "Stack: Python, TypeScript, React, Unity, AI/ML, Security Research" chatWidth ]

/-- The lines contributed by the comment at (0-based) index `i` of the loop
body of `create_chat_interface`: the single-message context block, or a
blank spacer for every comment after the first, followed by the message
bubble. -/
def messageBlock (single : Bool) (chatWidth : Int) (maxLines : Nat)
    (issueNumber bubbleTime : String) (p : Nat × Comment) : List String :=
  (if p.1 = 0 ∧ single then singleContextLines chatWidth
   else if 0 < p.1 then [_clip "" chatWidth] else [])
  ++ _create_message_bubble p.2.body p.2.login p.2.created_at p.2.is_owner
      chatWidth maxLines issueNumber bubbleTime

/-- The full line list assembled by `create_chat_interface` before the final
`"\n".join`. -/
def createChatInterfaceLines (comments : List Comment) (chatWidth : Int)
    (title issueNumber : String) (maxLines : Nat)
    (headerTime bubbleTime : String) : List String :=
  create_header chatWidth title headerTime (participantCount comments)
  ++ (if comments = [] then emptyStateLines chatWidth
      else
        (comments.enum.flatMap
          (messageBlock (comments.length = 1) chatWidth maxLines issueNumber bubbleTime))
        ++ (if comments.length ≤ 2 then engagementLines chatWidth else []))
  ++ create_footer chatWidth issueNumber

/-- `create_chat_interface`. -/
def create_chat_interface (comments : List Comment) (chatWidth : Int)
    (title issueNumber : String) (maxLines : Nat)
    (headerTime bubbleTime : String) : String :=
  String.intercalate "\n"
    (createChatInterfaceLines comments chatWidth title issueNumber maxLines
      headerTime bubbleTime)

end ReadmeChat.AsciiEngine

namespace ReadmeChat.ScriptsRenderChat

open ReadmeChat.Py ReadmeChat.PyTextwrap

/-! ## `scripts/render_chat.py` (`GroupChatRenderer`)

The configuration values read from the environment in `ChatConfig.__init__`
are carried in a `ChatConfig` structure; the `dateutil` parser behind
`format_timestamp` is injected as `parse` (returning the local hour/minute
on success, `none` on a parse failure); the repository owner login is the
`repoOwner` argument.  Python f-strings whose computed pad width can be
negative are modelled with `fmtL`/`fmtR`, so a `ValueError` raised by a
format specifier becomes an `Except.error`. -/

/-- The fields of `ChatConfig` used by the rendering path. -/
structure ChatConfig where
  chat_width : Int
  bubble_width : Int
  max_messages : Nat
  chat_title : String

/-- The default configuration (`CHAT_WIDTH=50`, `BUBBLE_WIDTH=38`,
`MAX_MESSAGES=10`, `CHAT_TITLE=#builders-chat`). -/
def defaultConfig : ChatConfig := ⟨50, 38, 10, "#builders-chat"⟩

/-- One comment dictionary restricted to the keys this renderer reads. -/
structure OldComment where
  login : String
  body : String
  created_at : String
  author_association : String
deriving DecidableEq

/-- An hour/minute pair, the result of timestamp parsing relevant to
`strftime("%H:%M")`. -/
structure HM where
  hour : Nat
  minute : Nat
deriving DecidableEq

/-- Zero-padded two-digit rendering used by `strftime("%H:%M")`. -/
def pad2 (n : Nat) : String :=
  if n < 10 then "0" ++ toString n else toString n

/-- `strftime("%H:%M")` of a parsed timestamp. -/
def strftimeHM (d : HM) : String := pad2 d.hour ++ ":" ++ pad2 d.minute

/-- `format_timestamp`: chat-style time, `"??:??"` when `dateutil` raises. -/
def format_timestamp (parse : String → Option HM) (timestampStr : String) :
    String :=
  match parse timestampStr with
  | some d => strftimeHM d
  | none => "??:??"

/-- `_contains_code_block`. -/
def _contains_code_block (text : String) : Bool :=
  pyIn "\x60\x60\x60" text ||
    2 ≤ (text.data.filter (· = '\x60')).length

/-- `_contains_urls`. -/
def _contains_urls (text : String) : Bool :=
  pyIn "http://" text ||
  pyIn "https://" text ||
  pyIn "www." text

/-- The greedy word loop of `_wrap_with_special_content`. -/
def specialLoop (width : Nat) : List String → List String → Nat →
    List String
  | [], cur, _ => if cur = [] then [] else [String.intercalate " " cur]
  | w :: ws, cur, curLen =>
    if curLen + w.length + 1 ≤ width then
      specialLoop width ws (cur ++ [w]) (curLen + w.length + 1)
    else
      (if cur = [] then [] else [String.intercalate " " cur]) ++
        specialLoop width ws [w] w.length

/-- `_wrap_with_special_content`: wrap on word boundaries only, never
breaking a word. -/
def _wrap_with_special_content (text : String) (width : Nat) : List String :=
  let lines := specialLoop width (pySplitWs text) [] 0
  if lines = [] then [pyTake text width] else lines

/-- `_wrap_code_block`. -/
def _wrap_code_block (text : String) (width : Nat) : List String :=
  if pyIn "\x60\x60\x60" text then
    (pySplitNl text).map (fun line => pyTake line width)
  else _wrap_with_special_content text width

/-- `wrap_message`.  The `textwrap.wrap` call cannot raise here (its width
is at least 16 at the call site), so the `except` branch is dead. -/
def wrap_message (text : String) (width : Nat) : List String :=
  if text = "" ∨ pyStrip text = "" then ["(empty message)"]
  else
    let text := pyStrip text
    if _contains_code_block text then _wrap_code_block text width
    else if _contains_urls text then _wrap_with_special_content text width
    else
      let lines := wrap scriptsOpts text width
      if lines = [] then [pyTake text width] else lines

/-- `create_message_bubble`.  Negative computed pad widths (possible when
`chat_width` is small) raise `ValueError` exactly where the Python
f-strings do. -/
def create_message_bubble (cfg : ChatConfig) (username message timestamp : String)
    (isOwner : Bool) : Except String (List String) := do
  let contentWidth : Int := min (message.length : Int) (cfg.bubble_width - 4)
  let bubbleWidth : Int := max (contentWidth + 4) 20
  let wrappedText := wrap_message message (bubbleWidth - 4).toNat
  let statusIndicator := if isOwner then "🔵" else "⚪"
  if isOwner then
    let timeHeader := timestamp ++ " " ++ username ++ " " ++ statusIndicator
    let headerLine ← fmtR timeHeader (cfg.chat_width - 2)
    let padding := cfg.chat_width - bubbleWidth - 2
    let pad ← fmtL "" padding
    let top := "│" ++ pad ++ "╭" ++ repChar '─' (bubbleWidth - 2) ++ "╮│"
    let rows ← wrappedText.mapM fun line => do
      let body ← fmtL line (bubbleWidth - 4)
      pure ("│" ++ pad ++ ("│ " ++ body ++ " │") ++ "│")
    let bottom := "│" ++ pad ++ "╰" ++ repChar '─' (bubbleWidth - 2) ++ "╯│"
    pure (["│" ++ headerLine ++ "│", top] ++ rows ++ [bottom])
  else
    let timeHeader := statusIndicator ++ " " ++ username ++ " " ++ timestamp
    let headerBody ← fmtL timeHeader (cfg.chat_width - 3)
    let tail ← fmtL "" (cfg.chat_width - bubbleWidth - 3)
    let top := "│ ╭" ++ repChar '─' (bubbleWidth - 2) ++ "╮" ++ tail ++ "│"
    let rows ← wrappedText.mapM fun line => do
      let body ← fmtL line (bubbleWidth - 4)
      pure ("│ " ++ ("│ " ++ body ++ " │") ++ tail ++ "│")
    let bottom := "│ ╰" ++ repChar '─' (bubbleWidth - 2) ++ "╯" ++ tail ++ "│"
    pure (["│ " ++ headerBody ++ "│", top] ++ rows ++ [bottom])

/-- `_sanitize_message` of this renderer (the whitespace-only case falls
through to the length cap and is returned stripped). -/
def _sanitize_message (message : String) : String :=
  if message = "" then "(empty message)"
  else
    let sanitized := pyStrip message
    if 500 < sanitized.length then pyTake sanitized 497 ++ "..." else sanitized

/-- `_is_owner_comment`. -/
def _is_owner_comment (repoOwner : String) (c : OldComment) : Bool :=
  c.author_association = "OWNER" || c.login = repoOwner

/-- `_get_recent_comments`: keep the most recent `max_messages` comments. -/
def _get_recent_comments (cfg : ChatConfig) (comments : List OldComment) :
    List OldComment :=
  if comments.length ≤ cfg.max_messages then comments
  else comments.drop (comments.length - cfg.max_messages)

/-- `len(set(c['user']['login'] for c in comments))`. -/
def participantCountOld (comments : List OldComment) : Nat :=
  ((comments.map OldComment.login).eraseDups).length

/-- The header block of `render_chat_interface`. -/
def headerLines (cfg : ChatConfig) (pc : Nat) : Except String (List String) := do
  let header := "💬 " ++ cfg.chat_title
  let status := "🟢 " ++ toString pc ++ " participants online"
  let h ← fmtL header (cfg.chat_width - 4)
  let s ← fmtL status (cfg.chat_width - 4)
  pure [ "╭" ++ repChar '─' (cfg.chat_width - 2) ++ "╮",
         "│ " ++ h ++ " │",
         "│ " ++ s ++ " │",
         "├" ++ repChar '─' (cfg.chat_width - 2) ++ "┤" ]

/-- The empty-chat block of `render_chat_interface` (its pads use Python
`' ' * n`, which never raises). -/
def emptyStateOld (cfg : ChatConfig) : Except String (List String) := do
  let emptyMsg := "No messages yet... be the first to say hi! 👋"
  let padding : Int := (cfg.chat_width - emptyMsg.length - 4).fdiv 2
  let blank ← fmtL "" (cfg.chat_width - 2)
  pure [ "│" ++ blank ++ "│",
         "│" ++ repChar ' ' padding ++ emptyMsg ++
           repChar ' ' (cfg.chat_width - emptyMsg.length - padding - 2) ++ "│",
         "│" ++ blank ++ "│" ]

/-- The loop body of `render_chat_interface` for the comment at index `i`:
the spacer is appended before the bubble is built, and any exception raised
while building the bubble is caught and the comment skipped. -/
def messagePiece (cfg : ChatConfig) (repoOwner : String)
    (parse : String → Option HM) (p : Nat × OldComment) : List String :=
  let username := p.2.login
  let message := _sanitize_message p.2.body
  let timestamp := format_timestamp parse p.2.created_at
  let isOwner := _is_owner_comment repoOwner p.2
  match fmtL "" (cfg.chat_width - 2) with
  | .error _ => []
  | .ok blank =>
    let spacer := if 0 < p.1 then ["│" ++ blank ++ "│"] else []
    match create_message_bubble cfg username message timestamp isOwner with
    | .ok bubbleLines => spacer ++ bubbleLines
    | .error _ => spacer

/-- The footer block of `render_chat_interface`. -/
def footerLines (cfg : ChatConfig) (issueNumber : String) :
    Except String (List String) := do
  let issueLink := "Issue #" ++ issueNumber
  let joinMsg := "💭 Join the conversation at"
  let blank ← fmtL "" (cfg.chat_width - 2)
  let link ← fmtL issueLink (cfg.chat_width - joinMsg.length - 4)
  pure [ "│" ++ blank ++ "│",
         "├" ++ repChar '─' (cfg.chat_width - 2) ++ "┤",
         "│ " ++ joinMsg ++ " " ++ link ++ " │",
         "╰" ++ repChar '─' (cfg.chat_width - 2) ++ "╯" ]

/-- The line list of `render_chat_interface` before the final `"\n".join`.
Per-message exceptions are caught inside `messagePiece`; exceptions raised
by the header, the empty-state block or the footer propagate. -/
def renderChatInterfaceLines (cfg : ChatConfig) (repoOwner issueNumber : String)
    (parse : String → Option HM) (comments : List OldComment) :
    Except String (List String) := do
  let hdr ← headerLines cfg (participantCountOld comments)
  let mid ←
    if comments = [] then emptyStateOld cfg
    else
      pure (((_get_recent_comments cfg comments).enum.map
        (messagePiece cfg repoOwner parse)).flatten)
  let ftr ← footerLines cfg issueNumber
  pure (hdr ++ mid ++ ftr)

/-- `render_chat_interface` (the `"\n".join` of the assembled lines). -/
def render_chat_interface (cfg : ChatConfig) (repoOwner issueNumber : String)
    (parse : String → Option HM) (comments : List OldComment) :
    Except String String :=
  (renderChatInterfaceLines cfg repoOwner issueNumber parse comments).map
    (String.intercalate "\n")

/-- A parser that always fails (used for concrete evaluations). -/
def noParse : String → Option HM := fun _ => none

end ReadmeChat.ScriptsRenderChat

namespace ReadmeChat.HtmlEngine

open ReadmeChat.Py ReadmeChat.ScriptsRenderChat

/-! ## `.github/scripts/html_engine.py`

The environment values read by `get_repo_path` are the `Env` structure; the
`dateutil` parser is injected as `parse`; `datetime.now()` is the injected
`nowTime` string; `_get_relative_time` (only reachable with
`human_friendly_time=True`) is injected as `rel`. -/

/-- `REPO_OWNER` / `REPO_NAME` as read from the environment (defaults
`keethesh`/`keethesh`). -/
structure Env where
  repoOwner : String
  repoName : String

/-- `HtmlChatConfig` (after `__post_init__`, which rejects
`max_lines_per_message < 1` and falls back to the `github` theme). -/
structure HtmlChatConfig where
  max_width : String
  theme : String
  show_timestamps : Bool
  max_lines_per_message : Nat
  enable_avatars : Bool
  enable_reactions : Bool
  human_friendly_time : Bool
  avatar_size : String

/-- The default `HtmlChatConfig()`. -/
def defaultHtmlConfig : HtmlChatConfig :=
  ⟨"600px", "github", true, 6, false, false, false, "32px"⟩

/-- `escape_html` on a single character: the replacement sequence of
`html.escape(s, quote=True)` (`&` first, then `<`, `>`, `"`, the
apostrophe; the chained `str.replace` calls are equivalent to this
character map because no replacement string contains a character replaced
by a later call). -/
def escapeChar (c : Char) : String :=
  if c = '&' then "&amp;"
  else if c = '<' then "&lt;"
  else if c = '>' then "&gt;"
  else if c = '"' then "&quot;"
  else if c = '\x27' then "&#x27;"
  else String.singleton c

/-- `escape_html` (empty strings — Python falsy — are returned as `""`). -/
def escape_html (s : String) : String :=
  if s = "" then "" else String.join (s.data.map escapeChar)

/-- The markup-significant characters `html.escape(s, quote=True)` must not
leave in its output: `<`, `>`, the double quote and the apostrophe (`&`
legitimately appears in the output, as the head of every entity). -/
def escBad (c : Char) : Bool :=
  decide (c = '<' ∨ c = '>' ∨ c = '"' ∨ c = '\x27')

/-- `get_repo_path`: validate the environment-supplied owner and repository
names; raises `ValueError` on empty or ill-formed components. -/
def githubNameOk (s : String) : Bool :=
  s ≠ "" && s.data.all (fun c => c.isAlphanum || c = '.' || c = '_' || c = '-')

/-- `get_repo_path`. -/
def get_repo_path (env : Env) : Except String String :=
  let owner := pyStrip env.repoOwner
  let name := pyStrip env.repoName
  if owner = "" ∨ name = "" then
    .error "Repository owner and name must not be empty"
  else if !(githubNameOk owner && githubNameOk name) then
    .error ("Invalid repository path format: " ++ owner ++ "/" ++ name)
  else .ok (owner ++ "/" ++ name)

/-- Normalisation step of `format_message_content`:
`content.strip().replace("\r\n", "\n").replace("\r", "\n")`. -/
def normalizeContent (content : String) : String :=
  pyReplace (pyReplace (pyStrip content) "\x0d\n" "\n") "\x0d" "\n"

/-- The truncation-link suffix of `format_message_content`. -/
def seeFullSuffix (repoPath issueNumber : String) : String :=
  "\n<br><em><a href=\"https://github.com/" ++ escape_html repoPath ++
    "/issues/" ++ escape_html issueNumber ++
    "\" target=\"_blank\" rel=\"noopener\">\n... see full comment in Issue #" ++
    escape_html issueNumber ++ "</a></em>"

/-- `format_message_content`: placeholder for blank bodies, escaped and
`<br>`-joined lines, with smart truncation appending a link into the issue.
A `ValueError` raised by `get_repo_path` inside the `try` block is caught
and rendered as the error placeholder. -/
def format_message_content (env : Env) (content : String) (maxLines : Nat)
    (issueNumber : String) : String :=
  if content = "" ∨ pyStrip content = "" then "<em>Empty message</em>"
  else
    let normalized := normalizeContent content
    let lines := pySplitNl normalized
    if maxLines < lines.length ∧ 0 < maxLines then
      let truncatedContent := String.intercalate "\n" (lines.take (maxLines - 1))
      match get_repo_path env with
      | .ok repoPath =>
        escape_html truncatedContent ++ seeFullSuffix repoPath issueNumber
      | .error e =>
        "<em>Error formatting message: " ++ escape_html e ++ "</em>"
    else pyReplace (escape_html normalized) "\n" "<br>"

/-- `_format_timestamp`: empty for missing timestamps and for parse
failures, otherwise `%H:%M` (or the relative phrase when
`human_friendly_time`). -/
def _format_timestamp (parse : String → Option HM) (rel : HM → String)
    (timestampStr : String) (humanFriendly : Bool) : String :=
  if timestampStr = "" then ""
  else
    match parse timestampStr with
    | none => ""
    | some d => if humanFriendly then rel d else strftimeHM d

/-- `get_avatar_url`. -/
def get_avatar_url (username : String) (size : Nat) : String :=
  "https://github.com/" ++ escape_html username ++ ".png?size=" ++ toString size

/-- The reaction-kind → emoji table of `_format_reactions`. -/
def reactionEmoji (kind : String) : Option String :=
  if kind = "+1" then some "👍"
  else if kind = "-1" then some "👎"
  else if kind = "laugh" then some "😄"
  else if kind = "confused" then some "😕"
  else if kind = "heart" then some "❤️"
  else if kind = "hooray" then some "🎉"
  else if kind = "rocket" then some "🚀"
  else if kind = "eyes" then some "👀"
  else none

/-- `_format_reactions` (the reactions dictionary modelled as an
insertion-ordered association list). -/
def _format_reactions (reactions : List (String × Nat)) : String :=
  let parts := reactions.filterMap fun p =>
    match reactionEmoji p.1 with
    | some emoji =>
      if 0 < p.2 then
        some ("<span class=\"reaction\"><span class=\"reaction-emoji\">" ++
          emoji ++ "</span><span class=\"reaction-count\">" ++ toString p.2 ++
          "</span></span>")
      else none
    | none => none
  if parts = [] then ""
  else "<div class=\"message-reactions\">" ++ String.join parts ++ "</div>"

/-- One comment as consumed by the markup backend. -/
structure HtmlComment where
  login : String
  body : String
  created_at : String
  is_owner : Bool
  reactions : List (String × Nat)
deriving DecidableEq

/-- `_generate_css_styles`.  The stylesheet is a configuration-independent
constant except for the two interpolation points (`max_width`,
`avatar_size`); the several hundred static CSS rules are abbreviated here to
the interpolated rules, which is the only part any property of this
development inspects. -/
def _generate_css_styles (config : HtmlChatConfig) : String :=
  "\n<style>\n.chat-container \x7b\n    max-width: " ++ config.max_width ++
    ";\n    margin: 0 auto;\n\x7d\n.avatar \x7b\n    width: " ++
    config.avatar_size ++ ";\n    height: " ++ config.avatar_size ++
    ";\n\x7d\n</style>"

/-- Python `int(s)` for the avatar-size string with its `px` suffix
removed: raises `ValueError` unless the remainder is all digits. -/
def pyIntOfString (s : String) : Except String Nat :=
  if s ≠ "" && s.data.all Char.isDigit then .ok s.toNat!
  else .error ("invalid literal for int() with base 10: " ++ s)

/-- The per-message HTML block built inside the loop of
`create_html_chat_interface` (the list of parts later joined with
newlines). -/
def messageParts (env : Env) (config : HtmlChatConfig)
    (parse : String → Option HM) (rel : HM → String) (issueNumber : String)
    (c : HtmlComment) : Except String (List String) := do
  let username := c.login
  let isOwner := c.is_owner
  let content := format_message_content env c.body config.max_lines_per_message
    issueNumber
  let timestamp :=
    if config.show_timestamps && c.created_at ≠ "" then
      _format_timestamp parse rel c.created_at config.human_friendly_time
    else ""
  let avatarHtml ←
    if config.enable_avatars then do
      let avatarSize ← pyIntOfString (pyReplace config.avatar_size "px" "")
      let avatarUrl := get_avatar_url username avatarSize
      let avatarClass := "avatar" ++ (if isOwner then " owner" else "")
      pure ("<img src=\"" ++ avatarUrl ++ "\" alt=\"" ++ escape_html username ++
        " avatar\" class=\"" ++ avatarClass ++ "\" loading=\"lazy\">")
    else pure ""
  let reactionsHtml :=
    if config.enable_reactions && c.reactions ≠ [] then
      _format_reactions c.reactions
    else ""
  let ownerClass := if isOwner then " owner" else ""
  pure (["<div class=\"message" ++ ownerClass ++ "\">",
         "<div class=\"message-header\">"]
    ++ (if avatarHtml ≠ "" then [avatarHtml] else [])
    ++ ["<a href=\"https://github.com/" ++ escape_html username ++
          "\" class=\"username" ++ ownerClass ++
          "\" target=\"_blank\" rel=\"noopener\">@" ++ escape_html username ++ "</a>",
        if timestamp ≠ "" then
          "<span class=\"timestamp\">" ++ timestamp ++ "</span>"
        else "",
        "</div>",
        "<div class=\"message-content\">" ++ content ++ "</div>"]
    ++ (if reactionsHtml ≠ "" then [reactionsHtml] else [])
    ++ ["</div>"])

/-- The header parts of `create_html_chat_interface` (`nowTime` is the
injected `datetime.now():%H:%M:%S` field). -/
def headerParts (title nowTime : String) (participantCount : Nat) :
    List String :=
  let statusText :=
    if participantCount = 0 then "Ready for connections • " ++ nowTime
    else if participantCount = 1 then "1 contributor online • " ++ nowTime
    else toString participantCount ++ " users active • " ++ nowTime
  let metaClass :=
    if participantCount = 0 then "header-meta" else "header-meta active"
  [ "<div class=\"chat-header\">",
    "<div class=\"window-controls\">",
    "<span class=\"window-control control-close\"></span>",
    "<span class=\"window-control control-minimize\"></span>",
    "<span class=\"window-control control-maximize\"></span>",
    "</div>",
    "<div class=\"header-title\">" ++ escape_html title ++ "</div>",
    "<div class=\"" ++ metaClass ++ "\">" ++ escape_html statusText ++ "</div>",
    "</div>" ]

/-- The empty-state parts of `create_html_chat_interface`. -/
def emptyStateParts : List String :=
  [ "<div class=\"empty-state\">",
    "<h3>👋 Welcome to the community chat!</h3>",
    "<p>This is where GitHub Issue discussions come to life.</p>",
    "<div class=\"project-showcase\">",
    "<div class=\"project-item\">🧠 <strong>LookbackAI</strong> - AI-powered video journal SaaS</div>",
    "<div class=\"project-item\">📋 <strong>Planify</strong> - Motion-style planner with skin in the game</div>",
    "<div class=\"project-item\">🚀 <strong>MergeFleet</strong> - Unity mobile space armada game</div>",
    "</div>",
    "<p><em>Start a conversation to see messages appear here!</em></p>",
    "</div>" ]

/-- `len({c["user"]["login"] for c in comments})` for html comments. -/
def participantCountHtml (comments : List HtmlComment) : Nat :=
  ((comments.map HtmlComment.login).eraseDups).length

/-- `create_html_chat_interface`: the complete part list, joined with
newlines.  The footer's `get_repo_path()` call is outside any `try` block,
so an invalid repository environment raises out of the function. -/
def create_html_chat_interface (env : Env) (comments : List HtmlComment)
    (config : HtmlChatConfig) (title issueNumber : String)
    (parse : String → Option HM) (rel : HM → String) (nowTime : String) :
    Except String String := do
  let pc := participantCountHtml comments
  let styles := _generate_css_styles config
  let middle ←
    if comments = [] then pure emptyStateParts
    else do
      let blocks ← comments.mapM (messageParts env config parse rel issueNumber)
      pure blocks.flatten
  let repoPath ← get_repo_path env
  let parts :=
    [styles, "<div class=\"chat-container\">"]
    ++ headerParts title nowTime pc
    ++ ["<div class=\"chat-messages\">"]
    ++ middle
    ++ ["</div>",
        "<div class=\"chat-footer\">",
        "💬 <a href=\"https://github.com/" ++ repoPath ++ "/issues/" ++
          issueNumber ++ "\" class=\"join-link\" target=\"_blank\">",
        "Join the conversation in Issue #" ++ issueNumber ++ "</a>",
        "</div>",
        "</div>"]
  pure (String.intercalate "\n" parts)

end ReadmeChat.HtmlEngine

namespace ReadmeChat

/-! ## Lemmas about the width measurer -/

/-- `wcswidthList` of the empty list. -/
theorem wcswidthList_nil : wcswidthList [] = 0 := rfl

/-- Unfolding `wcswidthList` on a cons cell. -/
theorem wcswidthList_cons (c : Char) (cs : List Char) :
    wcswidthList (c :: cs) =
      if wcwidthChar c < 0 then -1
      else if wcswidthList cs < 0 then -1
      else wcwidthChar c + wcswidthList cs := rfl

/-- Each code point measures -1, 0, 1 or 2; in particular never below -1. -/
theorem wcwidthChar_cases (c : Char) :
    wcwidthChar c = -1 ∨ 0 ≤ wcwidthChar c := by
  simp only [wcwidthChar]
  split_ifs <;> norm_num

/-- `wcswidthList` is -1 or non-negative. -/
theorem wcswidthList_cases (l : List Char) :
    wcswidthList l = -1 ∨ 0 ≤ wcswidthList l := by
  induction l with
  | nil => right; simp [wcswidthList]
  | cons c cs ih =>
    rw [wcswidthList_cons]
    split_ifs with h1 h2
    · left; rfl
    · left; rfl
    · right
      rcases ih with h | h
      · omega
      · omega

/-- Appending two printable parts adds the widths. -/
theorem wcswidthList_append_nonneg {a b : List Char}
    (ha : 0 ≤ wcswidthList a) (hb : 0 ≤ wcswidthList b) :
    wcswidthList (a ++ b) = wcswidthList a + wcswidthList b := by
  induction a with
  | nil => simp [wcswidthList]
  | cons c cs ih =>
    rw [List.cons_append, wcswidthList_cons]
    rw [wcswidthList_cons] at ha
    by_cases h1 : wcwidthChar c < 0
    · simp [h1] at ha
    · simp only [h1, if_false] at ha ⊢
      by_cases h2 : wcswidthList cs < 0
      · simp [h2] at ha
      · simp only [h2, if_false] at ha
        have hcs : 0 ≤ wcswidthList cs := by omega
        have h3 : ¬ wcswidthList (cs ++ b) < 0 := by rw [ih hcs]; omega
        rw [if_neg h3, ih hcs, wcswidthList_cons, if_neg h1, if_neg h2]
        ring

/-- A -1 left part poisons the whole append. -/
theorem wcswidthList_append_neg_left {a : List Char} (b : List Char)
    (ha : wcswidthList a = -1) : wcswidthList (a ++ b) = -1 := by
  induction a with
  | nil => rw [wcswidthList_nil] at ha; exact absurd ha (by decide)
  | cons c cs ih =>
    rw [List.cons_append, wcswidthList_cons]
    rw [wcswidthList_cons] at ha
    by_cases h1 : wcwidthChar c < 0
    · simp [h1]
    · simp only [h1, if_false] at ha ⊢
      by_cases h2 : wcswidthList cs < 0
      · have hcs : wcswidthList cs = -1 := by
          rcases wcswidthList_cases cs with h | h
          · exact h
          · omega
        simp [ih hcs]
      · simp only [h2, if_false] at ha
        exfalso
        rcases wcwidthChar_cases c with h | h <;> omega

/-- A -1 right part poisons the whole append. -/
theorem wcswidthList_append_neg_right (a : List Char) {b : List Char}
    (hb : wcswidthList b = -1) : wcswidthList (a ++ b) = -1 := by
  induction a with
  | nil => simpa using hb
  | cons c cs ih =>
    rw [List.cons_append, wcswidthList_cons]
    by_cases h1 : wcwidthChar c < 0
    · simp [h1]
    · simp [h1, ih]

/-- `wcswidthList` of a run of copies of a width-1 character. -/
theorem wcswidthList_replicate_one {c : Char} (hc : wcwidthChar c = 1)
    (n : Nat) : wcswidthList (List.replicate n c) = n := by
  induction n with
  | zero => simp [wcswidthList]
  | succ n ih =>
    rw [List.replicate_succ, wcswidthList_cons, hc, ih]
    split_ifs <;> omega

/-- The width of `spaces n` is `n`. -/
theorem wcswidth_spaces (n : Nat) : wcswidth (Py.spaces n) = n := by
  simpa [wcswidth, Py.spaces] using
    @wcswidthList_replicate_one ' ' (by decide) n

/-- `spaces n` has `n` characters. -/
theorem length_spaces (n : Nat) : (Py.spaces n).length = n := by
  simp [Py.spaces, String.length]

/-- `wcswidth` over a string append. -/
theorem wcswidth_append_nonneg {s t : String} (hs : 0 ≤ wcswidth s)
    (ht : 0 ≤ wcswidth t) : wcswidth (s ++ t) = wcswidth s + wcswidth t := by
  simpa [wcswidth, String.data_append] using wcswidthList_append_nonneg hs ht

/-- A string whose width-sum starts at 1 never has `wcswidth` zero. -/
theorem wcswidth_ne_zero_of_head {a b : String} (ha : 1 ≤ wcswidth a) :
    wcswidth (a ++ b) ≠ 0 := by
  simp only [wcswidth, String.data_append] at *
  rcases wcswidthList_cases b.data with hb | hb
  · have := wcswidthList_append_neg_right a.data hb
    omega
  · have := @wcswidthList_append_nonneg a.data b.data (by omega) hb
    omega

end ReadmeChat

namespace ReadmeChat.AsciiEngine

open ReadmeChat.Py

/-! ## Lemmas about `visual_width` and `_clip` -/

/-- Unfolding of `visual_width`. -/
theorem visual_width_def (s : String) :
    visual_width s = if 0 < wcswidth s then (wcswidth s).toNat else s.length :=
  rfl

/-- For printable nonzero widths, `visual_width` is `wcswidth`. -/
theorem visual_width_of_pos {s : String} (h : 0 < wcswidth s) :
    (visual_width s : Int) = wcswidth s := by
  rw [visual_width_def, if_pos h]
  omega

/-- Otherwise `visual_width` falls back to the code-point count. -/
theorem visual_width_of_nonpos {s : String} (h : wcswidth s ≤ 0) :
    visual_width s = s.length := by
  rw [visual_width_def, if_neg (by omega)]

/-- String lengths add over append. -/
theorem str_length_append (s t : String) :
    (s ++ t).length = s.length + t.length := by
  show (s ++ t).data.length = s.data.length + t.data.length
  rw [String.data_append, List.length_append]

/-- Appending spaces to a printable string adds their width. -/
theorem wcswidth_append_spaces {s : String} (h : 0 ≤ wcswidth s) (n : Nat) :
    wcswidth (s ++ spaces n) = wcswidth s + n := by
  have h2 : 0 ≤ wcswidth (spaces n) := by rw [wcswidth_spaces]; omega
  rw [wcswidth_append_nonneg h h2, wcswidth_spaces]

/-- Appending spaces to an unprintable string keeps `wcswidth` at -1. -/
theorem wcswidth_append_spaces_neg {s : String} (h : wcswidth s = -1) (n : Nat) :
    wcswidth (s ++ spaces n) = -1 := by
  simpa [wcswidth, String.data_append] using
    wcswidthList_append_neg_left (spaces n).data h

/-- Unfolding of the clip loop on a cons cell. -/
theorem clipLoop_cons (w : Int) (c : Char) (cs : List Char) (acc : String) :
    clipLoop w (c :: cs) acc =
      if (visual_width (acc.push c ++ ellipsis) : Int) > w then acc
      else clipLoop w cs (acc.push c) := rfl

/-- The clip loop preserves "the kept prefix plus the ellipsis still fits". -/
theorem clipLoop_inv (w : Int) :
    ∀ (cs : List Char) (acc : String),
      (visual_width (acc ++ ellipsis) : Int) ≤ w →
      (visual_width (clipLoop w cs acc ++ ellipsis) : Int) ≤ w := by
  intro cs
  induction cs with
  | nil => intro acc h; exact h
  | cons c cs ih =>
    intro acc h
    rw [clipLoop_cons]
    split_ifs with hgt
    · exact h
    · exact ih (acc.push c) (by omega)

/-- `wcswidth` of a string ending in the ellipsis is -1 or at least 1. -/
theorem wcswidth_with_ellipsis (t : String) :
    wcswidth (t ++ ellipsis) = -1 ∨ 1 ≤ wcswidth (t ++ ellipsis) := by
  rcases wcswidthList_cases t.data with h | h
  · left
    simpa [wcswidth, String.data_append] using
      wcswidthList_append_neg_left ellipsis.data h
  · right
    have h' : 0 ≤ wcswidth t := h
    have he : wcswidth ellipsis = 1 := by decide
    have := @wcswidth_append_nonneg t ellipsis h' (by rw [he]; omega)
    omega

/-- Case analysis of the truncation arm, for any kept prefix that (with the
ellipsis) still fits. -/
theorem clipTrunc_cases {t : String} {w : Int}
    (hfit : (visual_width (t ++ ellipsis) : Int) ≤ w) :
    (wcswidth (clipTrunc t w) = -1 ∧ ((clipTrunc t w).length : Int) = w) ∨
    wcswidth (clipTrunc t w) = w := by
  unfold clipTrunc
  rcases wcswidth_with_ellipsis t with hneg | hpos
  · left
    have hvw : visual_width (t ++ ellipsis) = (t ++ ellipsis).length :=
      visual_width_of_nonpos (by omega)
    constructor
    · exact wcswidth_append_spaces_neg hneg _
    · rw [str_length_append, length_spaces]
      rw [hvw] at hfit ⊢
      omega
  · right
    have hvw : (visual_width (t ++ ellipsis) : Int) = wcswidth (t ++ ellipsis) :=
      visual_width_of_pos (by omega)
    rw [wcswidth_append_spaces (by omega)]
    rw [hvw] at hfit ⊢
    omega

/-- Case analysis of the clip result for safe inputs (`wcswidth ≠ 0` or
empty): either it kept an unprintable character and its code-point count is
exactly `w` (so the fallback measure applies), or its `wcswidth` is exactly
`w` and `w ≥ 1`, or `w = 0` and the result is empty. -/
theorem clip_cases {s : String} {w : Int} (hw : 0 ≤ w)
    (hs : wcswidth s ≠ 0 ∨ s = "") :
    (wcswidth (_clip s w) = -1 ∧ ((_clip s w).length : Int) = w) ∨
    (wcswidth (_clip s w) = w ∧ 1 ≤ w) ∨
    ((_clip s w).data = [] ∧ w = 0) := by
  unfold _clip
  split_ifs with h1 h2
  · -- padding branch
    rcases wcswidthList_cases s.data with hneg | hpos
    · left
      have hneg' : wcswidth s = -1 := hneg
      constructor
      · exact wcswidth_append_spaces_neg hneg' _
      · have hvw : visual_width s = s.length :=
          visual_width_of_nonpos (by rw [hneg']; norm_num)
        rw [str_length_append, length_spaces]
        rw [hvw] at h1 ⊢
        omega
    · have hpos' : 0 ≤ wcswidth s := hpos
      rcases hs with hs | hs
      · have hge : 1 ≤ wcswidth s := by
          rcases lt_or_eq_of_le hpos' with h | h
          · omega
          · exact absurd h.symm hs
        have hvw : (visual_width s : Int) = wcswidth s :=
          visual_width_of_pos (by omega)
        right; left
        constructor
        · rw [wcswidth_append_spaces hpos']
          rw [hvw] at h1 ⊢
          omega
        · omega
      · subst hs
        rcases eq_or_lt_of_le hw with hzero | hpos2
        · right; right
          rw [← hzero]
          constructor
          · decide
          · rfl
        · right; left
          refine ⟨?_, by omega⟩
          have h0 : wcswidth "" = 0 := by decide
          rw [wcswidth_append_spaces (le_of_eq h0.symm), h0]
          have hvw : visual_width "" = 0 := by decide
          rw [hvw]
          omega
  · -- truncation branch
    have hfit : (visual_width (clipLoop w s.data "" ++ ellipsis) : Int) ≤ w := by
      apply clipLoop_inv
      have : visual_width ((("" : String)) ++ ellipsis) = 1 := by decide
      rw [this]
      omega
    rcases clipTrunc_cases hfit with ⟨hneg, hlen⟩ | hpos
    · exact Or.inl ⟨hneg, hlen⟩
    · exact Or.inr (Or.inl ⟨hpos, h2⟩)
  · -- no room even for the ellipsis: width must be 0
    right; right
    exact ⟨rfl, by omega⟩

/-- The target property of `_clip` for safe inputs: the result measures
exactly `w` by `visual_width`. -/
theorem clip_vw {s : String} {w : Int} (hw : 0 ≤ w)
    (hs : wcswidth s ≠ 0 ∨ s = "") :
    (visual_width (_clip s w) : Int) = w := by
  rcases clip_cases hw hs with ⟨hneg, hlen⟩ | ⟨hpos, _⟩ | ⟨hnil, hzero⟩
  · rw [visual_width_of_nonpos (by omega), hlen]
  · rw [visual_width_of_pos (by omega), hpos]
  · have hempty : _clip s w = "" := by
      cases hcl : _clip s w with
      | mk data =>
        rw [hcl] at hnil
        have hd : data = [] := hnil
        rw [hd]
    rw [hempty, hzero]
    decide

/-- Framing a clipped safe string between two `|` bars measures `w + 2`. -/
theorem vw_frame {s : String} {w : Int} (hw : 0 ≤ w)
    (hs : wcswidth s ≠ 0 ∨ s = "") :
    (visual_width ("|" ++ _clip s w ++ "|") : Int) = w + 2 := by
  have hbar : wcswidth "|" = 1 := by decide
  rcases clip_cases hw hs with ⟨hneg, hlen⟩ | ⟨hpos, _⟩ | ⟨hnil, hzero⟩
  · have houter : wcswidth ("|" ++ _clip s w ++ "|") = -1 := by
      have hin : wcswidthList ((_clip s w).data ++ ("|" : String).data) = -1 :=
        wcswidthList_append_neg_left _ hneg
      have h2 := wcswidthList_append_neg_right ("|" : String).data hin
      simp only [wcswidth, String.data_append, List.append_assoc] at *
      exact h2
    rw [visual_width_of_nonpos (by omega)]
    rw [str_length_append, str_length_append]
    have hb1 : (("|" : String)).length = 1 := by decide
    rw [hb1]
    push_cast
    omega
  · have hmid : 0 ≤ wcswidth (_clip s w) := by omega
    have hinner : wcswidth ("|" ++ _clip s w) = 1 + w := by
      rw [wcswidth_append_nonneg (by rw [hbar]; omega) hmid, hbar, hpos]
    have houter : wcswidth ("|" ++ _clip s w ++ "|") = 1 + w + 1 := by
      rw [wcswidth_append_nonneg (by rw [hinner]; omega) (by rw [hbar]; omega),
        hinner, hbar]
    rw [visual_width_of_pos (by rw [houter]; omega), houter]
    ring
  · have hempty : _clip s w = "" := by
      cases hcl : _clip s w with
      | mk data =>
        rw [hcl] at hnil
        have hd : data = [] := hnil
        rw [hd]
    rw [hempty, hzero]
    decide

end ReadmeChat.AsciiEngine

namespace ReadmeChat.AsciiEngine

open ReadmeChat.Py

/-! ## Width invariant of the ascii engine -/

/-- A clipped string with nonzero `wcswidth` measures exactly `W`. -/
theorem clip_vw_ne {s : String} {W : Int} (hw : 0 ≤ W) (h : wcswidth s ≠ 0) :
    (visual_width (_clip s W) : Int) = W := clip_vw hw (Or.inl h)

/-- A clipped empty string measures exactly `W`. -/
theorem clip_vw_empty {W : Int} (hw : 0 ≤ W) :
    (visual_width (_clip "" W) : Int) = W := clip_vw hw (Or.inr rfl)

/-- Cheap safety check: the first character of the string has width 1. -/
def headWidthOne (s : String) : Bool :=
  match s.data with
  | c :: _ => wcwidthChar c == 1
  | [] => false

/-- A list starting with a width-1 character never sums to zero. -/
theorem wcswidthList_cons_ne_zero {c : Char} {cs : List Char}
    (hc : wcwidthChar c = 1) : wcswidthList (c :: cs) ≠ 0 := by
  rw [wcswidthList_cons, hc]
  rcases wcswidthList_cases cs with h | h
  · simp [h]
  · rw [if_neg (by norm_num), if_neg (by omega)]
    omega

/-- A string whose first character has width 1 never measures zero. -/
theorem safe_of_headWidthOne {s : String} (h : headWidthOne s = true) :
    wcswidth s ≠ 0 := by
  unfold wcswidth
  unfold headWidthOne at h
  cases hd : s.data with
  | nil => rw [hd] at h; simp at h
  | cons c cs =>
    rw [hd] at h
    simp only [beq_iff_eq] at h
    exact wcswidthList_cons_ne_zero h

/-- The border line measures exactly `W` once `W ≥ 2`. -/
theorem border_vw {W : Int} (hw : 2 ≤ W) :
    (visual_width (_border W '-') : Int) = W := by
  have hrep : wcswidth (repChar '-' (W - 2)) = ((W - 2).toNat : Int) := by
    simpa [repChar, wcswidth] using
      @wcswidthList_replicate_one '-' (by decide) (W - 2).toNat
  have hplus : wcswidth "+" = 1 := by decide
  have h1 : wcswidth ("+" ++ repChar '-' (W - 2)) = 1 + (W - 2).toNat := by
    rw [wcswidth_append_nonneg (by rw [hplus]; omega) (by rw [hrep]; omega),
      hplus, hrep]
  have h2 : wcswidth ("+" ++ repChar '-' (W - 2) ++ "+") = 1 + (W - 2).toNat + 1 := by
    rw [wcswidth_append_nonneg (by rw [h1]; omega) (by rw [hplus]; omega), h1, hplus]
  rw [_border, visual_width_of_pos (by rw [h2]; omega), h2]
  omega

/-- The header meta string never measures zero (its literal head has
positive width). -/
theorem headerMeta_safe (t : String) (pc : Nat) : wcswidth (headerMeta t pc) ≠ 0 := by
  unfold headerMeta
  split_ifs
  · simp only [String.append_assoc]
    exact @wcswidth_ne_zero_of_head "Session: " _ (by decide)
  · simp only [String.append_assoc]
    exact @wcswidth_ne_zero_of_head "Active: " _ (by decide)
  · simp only [String.append_assoc]
    exact @wcswidth_ne_zero_of_head "Live chat: " _ (by decide)

/-- The welcome line never measures zero. -/
theorem welcomeLine_safe (pc : Nat) : wcswidth (welcomeLine pc) ≠ 0 := by
  unfold welcomeLine
  split_ifs
  · exact safe_of_headWidthOne (by decide)
  · exact safe_of_headWidthOne (by decide)
  · simp only [String.append_assoc]
    exact @wcswidth_ne_zero_of_head
      "keethesh@github:~/readme-chat (main)$ # " _ (by decide)

/-- Every header line measures exactly `W` once `W ≥ 2`. -/
theorem header_vw {W : Int} (hw : 2 ≤ W) (title t : String) (pc : Nat) :
    ∀ l ∈ create_header W title t pc, (visual_width l : Int) = W := by
  intro l hl
  simp only [create_header, List.mem_cons, List.not_mem_nil, or_false] at hl
  rcases hl with rfl | rfl | rfl | rfl | rfl
  · exact border_vw hw
  · have := @vw_frame ("[_] [^] [X] " ++ ("Terminal - " ++ title))
      (W - 2) (by omega)
      (Or.inl (@wcswidth_ne_zero_of_head "[_] [^] [X] " _ (by decide)))
    omega
  · have := @vw_frame (headerMeta t pc) (W - 2) (by omega)
      (Or.inl (headerMeta_safe t pc))
    omega
  · exact border_vw hw
  · exact clip_vw_ne (by omega) (welcomeLine_safe pc)

/-- Every footer line measures exactly `W` once `W ≥ 2`. -/
theorem footer_vw {W : Int} (hw : 2 ≤ W) (issue : String) :
    ∀ l ∈ create_footer W issue, (visual_width l : Int) = W := by
  intro l hl
  simp only [create_footer, List.mem_cons, List.not_mem_nil, or_false] at hl
  rcases hl with rfl | rfl | rfl | rfl
  · refine clip_vw_ne (by omega) ?_
    simp only [String.append_assoc]
    exact @wcswidth_ne_zero_of_head
      "=== Live Terminal Session === Connected to Issue #" _ (by decide)
  · exact clip_vw_ne (by omega) (safe_of_headWidthOne (by decide))
  · exact clip_vw_ne (by omega) (safe_of_headWidthOne (by decide))
  · exact border_vw hw

/-- Either message prompt, with anything appended, never measures zero. -/
theorem prompt_safe (t u seg : String) (o : Bool) :
    wcswidth (basePrompt t u o ++ seg) ≠ 0 := by
  unfold basePrompt
  split_ifs
  · simp only [String.append_assoc]
    exact @wcswidth_ne_zero_of_head "[" _ (by decide)
  · simp only [String.append_assoc]
    exact @wcswidth_ne_zero_of_head "[" _ (by decide)

/-- The continuation prompt, with anything appended, never measures zero. -/
theorem cont_safe (n : Nat) (seg : String) :
    wcswidth ((">" ++ spaces n) ++ seg) ≠ 0 := by
  simp only [String.append_assoc]
  exact @wcswidth_ne_zero_of_head ">" _ (by decide)

/-- Every line of a message bubble measures exactly `W` once `W ≥ 2`. -/
theorem bubble_vw {W : Int} (hw : 2 ≤ W) (content u ts : String) (o : Bool)
    (maxL : Nat) (issue tB : String) :
    ∀ l ∈ _create_message_bubble content u ts o W maxL issue tB,
      (visual_width l : Int) = W := by
  intro l hl
  unfold _create_message_bubble at hl
  simp only [List.mem_map] at hl
  obtain ⟨p, _, rfl⟩ := hl
  by_cases h0 : p.1 = 0
  · simp only [h0, if_pos rfl]
    exact clip_vw_ne (by omega) (prompt_safe tB u p.2 o)
  · simp only [if_neg h0]
    exact clip_vw_ne (by omega) (cont_safe _ p.2)

/-- Every line of the empty-state block measures exactly `W` once `W ≥ 2`. -/
theorem emptyState_vw {W : Int} (hw : 2 ≤ W) :
    ∀ l ∈ emptyStateLines W, (visual_width l : Int) = W := by
  intro l hl
  simp only [emptyStateLines, List.mem_cons, List.not_mem_nil, or_false] at hl
  rcases hl with rfl | rfl | rfl | rfl | rfl | rfl | rfl | rfl | rfl | rfl | rfl
    | rfl | rfl | rfl | rfl
  · exact clip_vw_ne (by omega) (safe_of_headWidthOne (by decide))
  · exact clip_vw_ne (by omega) (safe_of_headWidthOne (by decide))
  · exact clip_vw_ne (by omega) (safe_of_headWidthOne (by decide))
  · exact clip_vw_empty (by omega)
  · exact clip_vw_ne (by omega) (safe_of_headWidthOne (by decide))
  · exact clip_vw_ne (by omega) (safe_of_headWidthOne (by decide))
  · exact clip_vw_ne (by omega) (safe_of_headWidthOne (by decide))
  · exact clip_vw_empty (by omega)
  · exact clip_vw_ne (by omega) (safe_of_headWidthOne (by decide))
  · exact clip_vw_ne (by omega) (safe_of_headWidthOne (by decide))
  · exact clip_vw_ne (by omega) (safe_of_headWidthOne (by decide))
  · exact clip_vw_ne (by omega) (safe_of_headWidthOne (by decide))
  · exact clip_vw_empty (by omega)
  · exact clip_vw_ne (by omega) (safe_of_headWidthOne (by decide))
  · exact clip_vw_ne (by omega) (safe_of_headWidthOne (by decide))

/-- Every line of the single-message context block measures exactly `W`. -/
theorem singleContext_vw {W : Int} (hw : 2 ≤ W) :
    ∀ l ∈ singleContextLines W, (visual_width l : Int) = W := by
  intro l hl
  simp only [singleContextLines, List.mem_cons, List.not_mem_nil, or_false] at hl
  rcases hl with rfl | rfl | rfl | rfl | rfl | rfl | rfl | rfl
  · exact clip_vw_ne (by omega) (safe_of_headWidthOne (by decide))
  · exact clip_vw_ne (by omega) (safe_of_headWidthOne (by decide))
  · exact clip_vw_empty (by omega)
  · exact clip_vw_ne (by omega) (safe_of_headWidthOne (by decide))
  · exact clip_vw_ne (by omega) (safe_of_headWidthOne (by decide))
  · exact clip_vw_ne (by omega) (safe_of_headWidthOne (by decide))
  · exact clip_vw_ne (by omega) (safe_of_headWidthOne (by decide))
  · exact clip_vw_empty (by omega)

/-- Every line of the engagement block measures exactly `W`. -/
theorem engagement_vw {W : Int} (hw : 2 ≤ W) :
    ∀ l ∈ engagementLines W, (visual_width l : Int) = W := by
  intro l hl
  simp only [engagementLines, List.mem_cons, List.not_mem_nil, or_false] at hl
  rcases hl with rfl | rfl | rfl | rfl
  · exact clip_vw_empty (by omega)
  · exact clip_vw_ne (by omega) (safe_of_headWidthOne (by decide))
  · exact clip_vw_ne (by omega) (safe_of_headWidthOne (by decide))
  · exact clip_vw_ne (by omega) (safe_of_headWidthOne (by decide))

/-- Every line of a message block measures exactly `W` once `W ≥ 2`. -/
theorem messageBlock_vw {W : Int} (hw : 2 ≤ W) (single : Bool) (maxL : Nat)
    (issue tB : String) (p : Nat × Comment) :
    ∀ l ∈ messageBlock single W maxL issue tB p, (visual_width l : Int) = W := by
  intro l hl
  unfold messageBlock at hl
  rw [List.mem_append] at hl
  rcases hl with hl | hl
  · split_ifs at hl with h1 h2
    · exact singleContext_vw hw l hl
    · simp only [List.mem_singleton] at hl
      subst hl
      exact clip_vw_empty (by omega)
    · simp at hl
  · exact bubble_vw hw _ _ _ _ _ _ _ l hl

end ReadmeChat.AsciiEngine

namespace ReadmeChat.AsciiEngine

/-- Every line assembled by `create_chat_interface` measures exactly `W` by
`visual_width`, for any comment list and any canvas width `W ≥ 2`. -/
theorem createChatInterfaceLines_vw {W : Int} (hw : 2 ≤ W)
    (comments : List Comment) (title issue : String) (maxL : Nat)
    (tH tB : String) :
    ∀ l ∈ createChatInterfaceLines comments W title issue maxL tH tB,
      (visual_width l : Int) = W := by
  intro l hl
  unfold createChatInterfaceLines at hl
  rw [List.mem_append, List.mem_append] at hl
  rcases hl with (hl | hl) | hl
  · exact header_vw hw title tH _ l hl
  · split_ifs at hl with hc h2
    · exact emptyState_vw hw l hl
    · rw [List.mem_append] at hl
      rcases hl with hl | hl
      · rw [List.mem_flatMap] at hl
        obtain ⟨p, _, hp⟩ := hl
        exact messageBlock_vw hw _ _ _ _ p l hp
      · exact engagement_vw hw l hl
    · rw [List.mem_append] at hl
      rcases hl with hl | hl
      · rw [List.mem_flatMap] at hl
        obtain ⟨p, _, hp⟩ := hl
        exact messageBlock_vw hw _ _ _ _ p l hp
      · simp at hl
  · exact footer_vw hw issue l hl

end ReadmeChat.AsciiEngine

namespace ReadmeChat.PyTextwrap

open ReadmeChat.Py

/-! ## Line-length bound of `_wrap_chunks` with `break_long_words` -/

/-- `sumLen` of nil. -/
theorem sumLen_nil : sumLen [] = 0 := rfl

/-- `sumLen` of a cons cell. -/
theorem sumLen_cons (s : String) (l : List String) :
    sumLen (s :: l) = s.length + sumLen l := by
  simp [sumLen]

/-- `sumLen` over an appended singleton. -/
theorem sumLen_append_singleton (l : List String) (s : String) :
    sumLen (l ++ [s]) = sumLen l + s.length := by
  simp [sumLen]

/-- `String.join` has length `sumLen`. -/
theorem join_length (l : List String) : (String.join l).length = sumLen l := by
  suffices h : ∀ (s : String), (l.foldl (· ++ ·) s).length = s.length + sumLen l by
    simpa [String.join] using h ""
  induction l with
  | nil => intro s; simp [sumLen_nil]
  | cons a t ih =>
    intro s
    rw [List.foldl_cons, ih, ReadmeChat.AsciiEngine.str_length_append, sumLen_cons]
    omega

/-- Unfolding `greedy` on the empty chunk list. -/
theorem greedy_nil (w : Nat) (cur : List String) (len : Nat) :
    greedy w [] cur len = ([], cur, len) := rfl

/-- Unfolding `greedy` on a cons cell. -/
theorem greedy_cons (w : Nat) (c : String) (cs cur : List String) (len : Nat) :
    greedy w (c :: cs) cur len =
      if len + c.length ≤ w then greedy w cs (cur ++ [c]) (len + c.length)
      else (c :: cs, cur, len) := rfl

/-- The greedy loop keeps its running length equal to the line's `sumLen`,
keeps it within `w`, and only extends the accumulated line. -/
theorem greedy_spec (w : Nat) :
    ∀ (chunks cur : List String) (len : Nat), len = sumLen cur →
      (greedy w chunks cur len).2.2 = sumLen (greedy w chunks cur len).2.1 ∧
      (len ≤ w → (greedy w chunks cur len).2.2 ≤ w) ∧
      ∃ ext, (greedy w chunks cur len).2.1 = cur ++ ext := by
  intro chunks
  induction chunks with
  | nil =>
    intro cur len h
    exact ⟨h, fun hh => hh, ⟨[], by rw [greedy_nil]; simp⟩⟩
  | cons c cs ih =>
    intro cur len h
    rw [greedy_cons]
    split_ifs with hfit
    · have hnext := ih (cur ++ [c]) (len + c.length)
        (by rw [sumLen_append_singleton, h])
      refine ⟨hnext.1, fun _ => hnext.2.1 hfit, ?_⟩
      obtain ⟨ext, he⟩ := hnext.2.2
      exact ⟨[c] ++ ext, by rw [he, List.append_assoc]⟩
    · exact ⟨h, fun hh => hh, ⟨[], by simp⟩⟩

/-- `rfind` of a hyphen within `bound` characters lands strictly below
`bound`. -/
theorem lastHyphenPos_lt {l : List Char} {bound h : Nat}
    (hh : lastHyphenPos l bound = some h) : h < bound := by
  unfold lastHyphenPos at hh
  cases hf : (l.take bound).reverse.findIdx? (· = '-') with
  | none => rw [hf] at hh; simp at hh
  | some j =>
    rw [hf] at hh
    simp at hh
    have hne : (l.take bound).reverse ≠ [] := by
      intro he
      rw [he] at hf
      simp at hf
    have hlen1 : 1 ≤ (l.take bound).length := by
      rcases List.eq_nil_or_concat (l.take bound) with h0 | ⟨_, _, h0⟩
      · exact absurd (by rw [h0]; rfl) hne
      · rw [h0]; simp
    have hlen2 : (l.take bound).length ≤ bound := by
      rw [List.length_take]; omega
    omega

/-- `pyTake` keeps at most `n` characters. -/
theorem pyTake_length_le (s : String) (n : Nat) : (pyTake s n).length ≤ n := by
  show (s.data.take n).length ≤ n
  rw [List.length_take]
  omega

/-- With `break_long_words`, the long-word handler never pushes the current
line past `w` (for `w ≥ 1` and a current length within budget). -/
theorem handleLongWord_bound {opts : Opts} (hbl : opts.breakLongWords = true)
    {w curLen : Nat} (hw : 1 ≤ w) (hc : curLen ≤ w)
    (chunks curLine : List String) (hsum : curLen = sumLen curLine) :
    sumLen (handleLongWord opts w curLen chunks curLine).2 ≤ w := by
  cases chunks with
  | nil => rw [handleLongWord, ← hsum]; exact hc
  | cons chunk rest =>
    have hsp : (if w < 1 then 1 else w - curLen) = w - curLen := if_neg (by omega)
    rw [handleLongWord]
    simp only [hbl, hsp, eq_self_iff_true, if_true]
    rw [sumLen_append_singleton, ← hsum]
    generalize hE :
      (if opts.breakOnHyphens && decide (w - curLen < chunk.length) then
        match lastHyphenPos chunk.data (w - curLen) with
        | some h =>
          if 0 < h ∧ (chunk.data.take h).any (· ≠ '-') then h + 1
          else w - curLen
        | none => w - curLen
      else w - curLen) = E
    have hEle : E ≤ w - curLen := by
      rw [← hE]
      split_ifs with hbh
      · cases hl : lastHyphenPos chunk.data (w - curLen) with
        | none => exact le_refl _
        | some hp =>
          have hplt := lastHyphenPos_lt hl
          dsimp only
          split_ifs
          · exact hplt
          · exact le_refl _
      · exact le_refl _
    have := pyTake_length_le chunk E
    omega

/-- Dropping the last element never increases `sumLen`. -/
theorem sumLen_dropLast_le (l : List String) : sumLen l.dropLast ≤ sumLen l := by
  induction l with
  | nil => simp [sumLen_nil]
  | cons a t ih =>
    cases t with
    | nil => simp [sumLen]
    | cons b t2 =>
      have hdl : (a :: b :: t2).dropLast = a :: (b :: t2).dropLast := rfl
      rw [hdl, sumLen_cons, sumLen_cons]
      omega

/-- Dropping a trailing whitespace chunk never increases `sumLen`. -/
theorem sumLen_dropTrailingWs_le (l : List String) :
    sumLen (dropTrailingWs l) ≤ sumLen l := by
  unfold dropTrailingWs
  cases l.getLast? with
  | none => exact le_refl _
  | some lst =>
    dsimp only
    split_ifs
    · exact sumLen_dropLast_le l
    · exact le_refl _

/-- With `break_long_words`, the line finished by one outer iteration has at
most `w` characters. -/
theorem oneLine_bound {opts : Opts} (hbl : opts.breakLongWords = true)
    {w : Nat} (hw : 1 ≤ w) (chunks1 : List String) :
    sumLen (oneLine opts w chunks1).2 ≤ w := by
  unfold oneLine
  dsimp only
  have hg := greedy_spec w chunks1 [] 0 rfl
  have hcur : sumLen (greedy w chunks1 [] 0).2.1 ≤ w := by
    rw [← hg.1]; exact hg.2.1 (by omega)
  cases hrem : (greedy w chunks1 [] 0).1 with
  | nil =>
    dsimp only
    exact le_trans (sumLen_dropTrailingWs_le _) hcur
  | cons d ds =>
    dsimp only
    split_ifs with hlong
    · exact le_trans (sumLen_dropTrailingWs_le _)
        (handleLongWord_bound hbl hw (hg.2.1 (by omega)) _ _ hg.1)
    · exact le_trans (sumLen_dropTrailingWs_le _) hcur

/-- Unfolding `wrapLoop` when fuel and chunks remain. -/
theorem wrapLoop_cons (opts : Opts) (w fuel : Nat) (c : String)
    (cs lines : List String) :
    wrapLoop opts w (fuel + 1) (c :: cs) lines =
      (let chunks1 := if pyStrip c = "" ∧ lines ≠ [] then cs else c :: cs
       let ol := oneLine opts w chunks1
       let lines2 := if ol.2 = [] then lines else lines ++ [String.join ol.2]
       wrapLoop opts w fuel ol.1 lines2) := rfl

/-- With `break_long_words` and `w ≥ 1`, every line ever emitted by the
wrap loop has at most `w` characters. -/
theorem wrapLoop_bound {opts : Opts} (hbl : opts.breakLongWords = true)
    {w : Nat} (hw : 1 ≤ w) :
    ∀ (fuel : Nat) (chunks lines : List String),
      (∀ l ∈ lines, l.length ≤ w) →
      ∀ l ∈ wrapLoop opts w fuel chunks lines, l.length ≤ w := by
  intro fuel
  induction fuel with
  | zero => intro chunks lines hlines l hl; exact hlines l hl
  | succ fuel ih =>
    intro chunks lines hlines l hl
    cases chunks with
    | nil => exact hlines l hl
    | cons c cs =>
      rw [wrapLoop_cons] at hl
      simp only [] at hl
      refine ih _ _ ?_ l hl
      intro l2 hl2
      split_ifs at hl2
      · exact hlines l2 hl2
      · rw [List.mem_append] at hl2
        rcases hl2 with hl2 | hl2
        · exact hlines l2 hl2
        · rw [List.mem_singleton] at hl2
          subst hl2
          rw [join_length]
          exact oneLine_bound hbl hw _
      · exact hlines l2 hl2
      · rw [List.mem_append] at hl2
        rcases hl2 with hl2 | hl2
        · exact hlines l2 hl2
        · rw [List.mem_singleton] at hl2
          subst hl2
          rw [join_length]
          exact oneLine_bound hbl hw _

/-- With `break_long_words` and `w ≥ 1`, every line returned by the chunk
assembler has at most `w` characters. -/
theorem wrapChunks_bound {opts : Opts} (hbl : opts.breakLongWords = true)
    {w : Nat} (hw : 1 ≤ w) (chunks : List String) :
    ∀ l ∈ wrapChunks opts chunks w, l.length ≤ w :=
  wrapLoop_bound hbl hw _ chunks [] (by simp)

/-- With `break_long_words` and `w ≥ 1`, every line returned by
`textwrap.wrap` has at most `w` characters. -/
theorem wrap_bound {opts : Opts} (hbl : opts.breakLongWords = true)
    {w : Nat} (hw : 1 ≤ w) (text : String) :
    ∀ l ∈ wrap opts text w, l.length ≤ w :=
  wrapChunks_bound hbl hw _

end ReadmeChat.PyTextwrap

namespace ReadmeChat.PyTextwrap

open ReadmeChat.Py

/-! ## Non-emptiness of the wrap output -/

/-- `splitNl` always returns at least one field. -/
theorem splitNl_ne_nil (l : List Char) : splitNl l ≠ [] := by
  cases l with
  | nil => simp [splitNl]
  | cons c cs =>
    unfold splitNl
    split_ifs
    · simp
    · cases splitNl cs <;> simp

/-- `pySplitNl` always returns at least one field. -/
theorem pySplitNl_ne_nil (s : String) : pySplitNl s ≠ [] := by
  unfold pySplitNl
  intro h
  exact splitNl_ne_nil s.data (List.map_eq_nil_iff.mp h)

/-- Stripping a non-empty all-printable (no whitespace) character list is
not empty. -/
theorem pyStripChars_ne_nil {l : List Char}
    (hne : l ≠ []) (hall : ∀ x ∈ l, pyIsSpace x = false) :
    pyStripChars l ≠ [] := by
  cases l with
  | nil => exact absurd rfl hne
  | cons c cs =>
    unfold pyStripChars
    have h1 : (c :: cs).dropWhile pyIsSpace = c :: cs := by
      rw [List.dropWhile_cons, hall c (by simp)]
      simp
    rw [h1]
    intro h
    have h2 : (c :: cs).reverse.dropWhile pyIsSpace = [] := by
      have := congrArg List.reverse h
      simpa using this
    rw [List.dropWhile_eq_nil_iff] at h2
    have := h2 c (by simp)
    rw [hall c (by simp)] at this
    exact Bool.false_ne_true this

/-- `pyStrip` of a nonempty whitespace-free string is not empty. -/
theorem pyStrip_mk_ne {l : List Char} (hne : l ≠ [])
    (hall : ∀ x ∈ l, pyIsSpace x = false) :
    pyStrip (String.mk l) ≠ "" := by
  intro h
  have : pyStripChars l = [] := congrArg String.data h
  exact pyStripChars_ne_nil hne hall this

/-- Dropping a trailing whitespace chunk from a line whose first chunk is
not all-whitespace leaves the line non-empty. -/
theorem dropTrailingWs_cons_ne (a : String) (tail : List String)
    (ha : pyStrip a ≠ "") : dropTrailingWs (a :: tail) ≠ [] := by
  cases tail with
  | nil =>
    unfold dropTrailingWs
    have : (a :: ([] : List String)).getLast? = some a := rfl
    rw [this]
    dsimp only
    rw [if_neg ha]
    simp
  | cons b t =>
    unfold dropTrailingWs
    cases hlast : (a :: b :: t).getLast? with
    | none => simp
    | some lst =>
      dsimp only
      split_ifs
      · have hdl : (a :: b :: t).dropLast = a :: (b :: t).dropLast := rfl
        rw [hdl]
        simp
      · simp

/-- With `break_long_words`, the long-word handler always appends some cut
of the head chunk to the current line. -/
theorem handleLongWord_shape_any {opts : Opts} (hbl : opts.breakLongWords = true)
    (w curLen : Nat) (chunk : String) (rest curLine : List String) :
    ∃ e, (handleLongWord opts w curLen (chunk :: rest) curLine).2
        = curLine ++ [pyTake chunk e] := by
  rw [handleLongWord]
  simp only [hbl, eq_self_iff_true, if_true]
  exact ⟨_, rfl⟩

/-- With `break_long_words`, the long-word handler appends a cut of the
head chunk of at least one character, provided at least one column of space
is left. -/
theorem handleLongWord_shape {opts : Opts} (hbl : opts.breakLongWords = true)
    {w curLen : Nat} (hsl : 1 ≤ (if w < 1 then 1 else w - curLen))
    (chunk : String) (rest curLine : List String) :
    ∃ e, 1 ≤ e ∧
      (handleLongWord opts w curLen (chunk :: rest) curLine).2
        = curLine ++ [pyTake chunk e] := by
  rw [handleLongWord]
  simp only [hbl, eq_self_iff_true, if_true]
  refine ⟨_, ?_, rfl⟩
  by_cases hwlt : w < 1
  · simp only [if_pos hwlt]
    split_ifs with h
    · cases hl : lastHyphenPos chunk.data 1 with
      | none => exact le_refl 1
      | some hp =>
        dsimp only
        split_ifs
        · exact Nat.succ_le_succ (Nat.zero_le _)
        · exact le_refl 1
    · exact le_refl 1
  · have hsl2 : 1 ≤ w - curLen := by rwa [if_neg hwlt] at hsl
    simp only [if_neg hwlt]
    split_ifs with h
    · cases hl : lastHyphenPos chunk.data (w - curLen) with
      | none => exact hsl2
      | some hp =>
        dsimp only
        split_ifs
        · exact Nat.succ_le_succ (Nat.zero_le _)
        · exact hsl2
    · exact hsl2

/-- `pyTake` of at least one character from a nonempty string is not
all-whitespace when the string has no whitespace. -/
theorem pyTake_strip_ne {s : String} {e : Nat} (he : 1 ≤ e)
    (hne : s.data ≠ []) (hall : ∀ x ∈ s.data, pyIsSpace x = false) :
    pyStrip (pyTake s e) ≠ "" := by
  cases hd : s.data with
  | nil => exact absurd hd hne
  | cons c cs =>
    show pyStrip (String.mk (s.data.take e)) ≠ ""
    apply pyStrip_mk_ne
    · rw [hd]
      cases e with
      | zero => omega
      | succ e2 => simp
    · intro x hx
      exact hall x (List.mem_of_mem_take hx)

/-- The current line produced by one outer iteration, fed a chunk list
whose first chunk is nonempty and whitespace-free, is non-empty (with
`break_long_words` and `w ≥ 1`). -/
theorem oneLine_ne {opts : Opts} (hbl : opts.breakLongWords = true)
    {w : Nat} (hw : 1 ≤ w) (ch : String) (rest : List String)
    (hne : ch.data ≠ []) (hall : ∀ x ∈ ch.data, pyIsSpace x = false) :
    (oneLine opts w (ch :: rest)).2 ≠ [] := by
  have hchstrip : pyStrip ch ≠ "" := by
    have h0 : pyStrip (String.mk ch.data) ≠ "" := pyStrip_mk_ne hne hall
    exact h0
  unfold oneLine
  rcases hgr : greedy w (ch :: rest) [] 0 with ⟨rem, cur, curLen⟩
  by_cases hfit : 0 + ch.length ≤ w
  · -- the whole first chunk fits on the line
    have hstep : greedy w rest ([] ++ [ch]) (0 + ch.length) = (rem, cur, curLen) := by
      rw [← hgr, greedy_cons, if_pos hfit]
    have hspec := greedy_spec w rest ([] ++ [ch]) (0 + ch.length)
      (by rw [sumLen_append_singleton, sumLen_nil])
    obtain ⟨ext, hext⟩ := hspec.2.2
    have hcur : cur = ch :: ext := by
      have := congrArg (fun p => p.2.1) hstep
      dsimp only at this
      rw [hext] at this
      simpa using this.symm
    cases rem with
    | nil =>
      dsimp only
      rw [hcur]
      exact dropTrailingWs_cons_ne ch ext hchstrip
    | cons d ds =>
      dsimp only
      split_ifs with hlong
      · obtain ⟨e, he2⟩ := handleLongWord_shape_any hbl w curLen d ds cur
        rw [he2, hcur, List.cons_append]
        exact dropTrailingWs_cons_ne ch _ hchstrip
      · rw [hcur]
        exact dropTrailingWs_cons_ne ch ext hchstrip
  · -- over-long first chunk: break_long_words cuts at least one character
    have hstep : (ch :: rest, ([] : List String), 0) = (rem, cur, curLen) := by
      rw [← hgr, greedy_cons, if_neg hfit]
    obtain ⟨h1, h2, h3⟩ : ch :: rest = rem ∧ ([] : List String) = cur ∧ 0 = curLen := by
      simpa [Prod.ext_iff] using hstep
    subst h1; subst h2; subst h3
    dsimp only
    split_ifs with hlong
    · obtain ⟨e, he1, he2⟩ := @handleLongWord_shape _ hbl w 0
        (by split_ifs <;> omega) ch rest []
      rw [he2]
      simp only [List.nil_append]
      exact dropTrailingWs_cons_ne _ [] (pyTake_strip_ne he1 hne hall)
    · omega

end ReadmeChat.PyTextwrap

namespace ReadmeChat.PyTextwrap

open ReadmeChat.Py

/-- The wrap loop only ever appends to the accumulated line list. -/
theorem wrapLoop_extends (opts : Opts) (w : Nat) :
    ∀ (fuel : Nat) (chunks lines : List String),
      ∃ suffix, wrapLoop opts w fuel chunks lines = lines ++ suffix := by
  intro fuel
  induction fuel with
  | zero => intro chunks lines; exact ⟨[], by simp [wrapLoop]⟩
  | succ fuel ih =>
    intro chunks lines
    cases chunks with
    | nil => exact ⟨[], by simp [wrapLoop]⟩
    | cons c cs =>
      rw [wrapLoop_cons]
      dsimp only
      split_ifs
      · exact ih _ lines
      · obtain ⟨s, hs⟩ := ih (oneLine opts w cs).1
          (lines ++ [String.join (oneLine opts w cs).2])
        exact ⟨_, by rw [hs, List.append_assoc]⟩
      · exact ih _ lines
      · obtain ⟨s, hs⟩ := ih (oneLine opts w (c :: cs)).1
          (lines ++ [String.join (oneLine opts w (c :: cs)).2])
        exact ⟨_, by rw [hs, List.append_assoc]⟩

/-- `dropWhile` never lengthens a list. -/
theorem dropWhile_len_le {α : Type} (p : α → Bool) (l : List α) :
    (l.dropWhile p).length ≤ l.length := by
  induction l with
  | nil => simp [List.dropWhile]
  | cons a l ih =>
    by_cases h : p a
    · simpa [List.dropWhile, h] using Nat.le_succ_of_le ih
    · simp [List.dropWhile, h]

/-- The chunk-run fuel is irrelevant once it covers the list length. -/
theorem chunkRunsF_congr :
    ∀ (f1 : Nat) {f2 : Nat} {l : List Char}, l.length ≤ f1 → l.length ≤ f2 →
      chunkRunsF f1 l = chunkRunsF f2 l := by
  intro f1
  induction f1 with
  | zero =>
    intro f2 l h1 _
    have hl : l = [] := List.eq_nil_of_length_eq_zero (Nat.le_zero.mp h1)
    subst hl
    cases f2 <;> rfl
  | succ f ih =>
    intro f2 l h1 h2
    cases l with
    | nil => cases f2 <;> rfl
    | cons c cs =>
      cases f2 with
      | zero => simp at h2
      | succ f2p =>
        simp only [chunkRunsF]
        have hd := dropWhile_len_le (fun x => pyIsSpace x == pyIsSpace c) cs
        simp only [List.length_cons] at h1 h2
        congr 1
        exact ih (by omega) (by omega)

/-- Unfolding `chunkRuns` on a cons cell. -/
theorem chunkRuns_cons (c : Char) (cs : List Char) :
    chunkRuns (c :: cs) =
      (c :: cs.takeWhile (fun x => pyIsSpace x == pyIsSpace c)) ::
        chunkRuns (cs.dropWhile (fun x => pyIsSpace x == pyIsSpace c)) := by
  unfold chunkRuns
  simp only [List.length_cons, chunkRunsF]
  congr 1
  exact chunkRunsF_congr _ (dropWhile_len_le _ _) le_rfl

/-- On a text whose first character is not whitespace, `wrap` (with
`break_long_words` and no whitespace replacement) returns at least one
line. -/
theorem wrap_ne_nil {opts : Opts} (hbl : opts.breakLongWords = true)
    (hrw : opts.replaceWhitespace = false) {w : Nat} (hw : 1 ≤ w)
    {t : String} {c : Char} {cs : List Char} (hdata : t.data = c :: cs)
    (hc : pyIsSpace c = false) : wrap opts t w ≠ [] := by
  unfold wrap wordChunks wrapChunks munge
  rw [hrw]
  simp only [Bool.false_eq_true, if_false, hdata, chunkRuns_cons, List.map_cons]
  set ch := String.mk (c :: cs.takeWhile (fun x => pyIsSpace x == pyIsSpace c))
    with hch
  set more := (chunkRuns (cs.dropWhile (fun x => pyIsSpace x == pyIsSpace c))).map
    String.mk with hmore
  have hchdata : ch.data = c :: cs.takeWhile (fun x => pyIsSpace x == pyIsSpace c) :=
    rfl
  have hchne : ch.data ≠ [] := by rw [hchdata]; simp
  have hchall : ∀ x ∈ ch.data, pyIsSpace x = false := by
    intro x hx
    rw [hchdata] at hx
    rcases List.mem_cons.mp hx with rfl | hx
    · exact hc
    · have := List.mem_takeWhile_imp hx
      simp only [beq_iff_eq] at this
      rw [this, hc]
  cases hfuel : 2 * sumLen (ch :: more) + (ch :: more).length + 2 with
  | zero => omega
  | succ fuel =>
    rw [wrapLoop_cons]
    dsimp only
    have hcond : ¬ (pyStrip ch = "" ∧ ([] : List String) ≠ []) := by
      rintro ⟨_, hne2⟩
      exact hne2 rfl
    rw [if_neg hcond]
    have hone := oneLine_ne hbl hw ch more hchne hchall
    rw [if_neg hone]
    obtain ⟨suffix, hs⟩ := wrapLoop_extends opts w fuel
      (oneLine opts w (ch :: more)).1
      ([] ++ [String.join (oneLine opts w (ch :: more)).2])
    rw [hs]
    simp

end ReadmeChat.PyTextwrap

namespace ReadmeChat.Py

/-- `dropWhile` returns a suffix of its input. -/
theorem dropWhile_isSuffix {α : Type} (p : α → Bool) (l : List α) :
    ∃ t, t ++ l.dropWhile p = l := by
  induction l with
  | nil => exact ⟨[], rfl⟩
  | cons a l ih =>
    by_cases h : p a
    · obtain ⟨t, ht⟩ := ih
      exact ⟨a :: t, by simp [List.dropWhile_cons, h, ht]⟩
    · exact ⟨[], by simp [List.dropWhile_cons, h]⟩

/-- The head surviving `dropWhile` fails the predicate. -/
theorem dropWhile_head_false {α : Type} {p : α → Bool} {l : List α} {c : α}
    {cs : List α} (h : l.dropWhile p = c :: cs) : p c = false := by
  induction l with
  | nil => simp [List.dropWhile] at h
  | cons a l ih =>
    rw [List.dropWhile_cons] at h
    split_ifs at h with hp
    · exact ih h
    · cases h
      exact Bool.of_not_eq_true hp

/-- The head of a stripped character list is not whitespace. -/
theorem pyStripChars_head {l : List Char} {c : Char} {cs : List Char}
    (h : pyStripChars l = c :: cs) : pyIsSpace c = false := by
  unfold pyStripChars at h
  set A := l.dropWhile pyIsSpace with hA
  obtain ⟨t, ht⟩ := dropWhile_isSuffix pyIsSpace A.reverse
  have hpref : (A.reverse.dropWhile pyIsSpace).reverse ++ t.reverse = A := by
    have := congrArg List.reverse ht
    simpa [List.reverse_append] using this
  rw [h] at hpref
  cases hAcase : A with
  | nil => rw [hAcase] at hpref; simp at hpref
  | cons a as =>
    have hhead : c = a := by
      rw [hAcase] at hpref
      have := congrArg (fun x => x.head?) hpref
      simpa using this
    subst hhead
    have hdw : l.dropWhile pyIsSpace = c :: as := by rw [← hA]; exact hAcase
    exact dropWhile_head_false hdw
end ReadmeChat.Py

namespace ReadmeChat.AsciiEngine

open ReadmeChat.Py ReadmeChat.PyTextwrap

/-! ## Shape lemmas for the message bubble -/

/-- The paragraph wrapper always returns at least one line (given at least
one column of budget). -/
theorem wrapParagraphs_ne (content : String) {avail : Nat} (ha : 1 ≤ avail) :
    wrapParagraphs content avail ≠ [] := by
  unfold wrapParagraphs
  cases hsplit : pySplitNl content with
  | nil => exact absurd hsplit (pySplitNl_ne_nil content)
  | cons p0 ps =>
    rw [List.flatMap_cons]
    intro h
    have h0 : (if pyStrip p0 = "" then [""]
        else wrap asciiOpts (pyStrip p0) avail) = [] :=
      (List.append_eq_nil.mp h).1
    split_ifs at h0 with hblank
    · cases hd : (pyStrip p0).data with
      | nil =>
        apply hblank
        cases hp : pyStrip p0 with
        | mk data =>
          rw [hp] at hd
          simp only at hd
          rw [hd]
      | cons c cs =>
        have hhead : pyIsSpace c = false := by
          refine @pyStripChars_head p0.data c cs ?_
          have h2 : (pyStrip p0).data = pyStripChars p0.data := rfl
          rw [← h2, hd]
        exact wrap_ne_nil rfl rfl ha hd hhead h0

end ReadmeChat.AsciiEngine

namespace ReadmeChat.AsciiEngine

open ReadmeChat.Py ReadmeChat.PyTextwrap

/-- Truncation keeps at least one line. -/
theorem truncateWrapped_ne {wrapped : List String} (maxL : Nat)
    (issue : String) (hne : wrapped ≠ []) :
    truncateWrapped wrapped maxL issue ≠ [] := by
  unfold truncateWrapped
  split_ifs
  · simp
  · exact hne

/-- The message bubble always contains at least one line (for any content,
any width, any `max_lines ≥ 1`; in fact for any `max_lines`). -/
theorem bubble_ne (content u ts : String) (o : Bool) (W : Int) (maxL : Nat)
    (issue tB : String) :
    _create_message_bubble content u ts o W maxL issue tB ≠ [] := by
  unfold _create_message_bubble
  intro h
  rw [List.map_eq_nil_iff] at h
  have h2 : truncateWrapped
      (wrapParagraphs content
        (max 1 (W - (visual_width (basePrompt tB u o) : Int))).toNat)
      maxL issue = [] := by
    cases he : truncateWrapped
        (wrapParagraphs content
          (max 1 (W - (visual_width (basePrompt tB u o) : Int))).toNat)
        maxL issue with
    | nil => rfl
    | cons x xs => rw [he] at h; simp [List.enum] at h
  exact truncateWrapped_ne maxL issue
    (wrapParagraphs_ne content (by omega)) h2

/-- When the prompt and the first wrapped segment fit in the canvas, the
first bubble line is exactly the prompt, the segment and space padding — in
particular it begins with the identity prompt. -/
theorem bubble_head (content u ts : String) (o : Bool) (W : Int) (maxL : Nat)
    (issue tB : String) {s0 : String} {tl : List String}
    (h : truncateWrapped
        (wrapParagraphs content
          (max 1 (W - (visual_width (basePrompt tB u o) : Int))).toNat)
        maxL issue = s0 :: tl) :
    (_create_message_bubble content u ts o W maxL issue tB).head? =
      some (_clip (basePrompt tB u o ++ s0) W) := by
  simp only [_create_message_bubble]
  rw [h]
  rfl

/-- The owner prompt and the non-owner prompt are distinct strings for
every time and username. -/
theorem basePrompt_distinct (t u : String) :
    basePrompt t u true ≠ basePrompt t u false := by
  intro h
  rw [show basePrompt t u true
        = "[" ++ t ++ "] " ++ u ++ "@github:~/readme-chat (main)$ # " from rfl,
      show basePrompt t u false
        = "[" ++ t ++ "] " ++ u ++ "@github:~$ # " from rfl] at h
  have hlen := congrArg String.length h
  simp only [str_length_append] at hlen
  have e1 : (("@github:~/readme-chat (main)$ # " : String)).length = 32 := rfl
  have e2 : (("@github:~$ # " : String)).length = 13 := rfl
  rw [e1, e2] at hlen
  omega

/-- A string that fits the width is clipped by pure padding. -/
theorem clip_of_fits {s : String} {w : Int}
    (h : (visual_width s : Int) ≤ w) :
    _clip s w = s ++ spaces (w - visual_width s).toNat := by
  unfold _clip
  rw [if_pos h]

end ReadmeChat.AsciiEngine

namespace ReadmeChat.AsciiEngine

open ReadmeChat.Py

/-! ## Exactness of `_clip` below the input width, and overflow analysis -/

/-- When the requested width is strictly below the visual width of the
input, `_clip` measures exactly `w` — with no safety assumption on the
input, because the truncation arm re-measures what it kept. -/
theorem clip_vw_overflow {s : String} {w : Int} (hw : 0 ≤ w)
    (hover : w < (visual_width s : Int)) :
    (visual_width (_clip s w) : Int) = w := by
  unfold _clip
  rw [if_neg (by omega)]
  split_ifs with h2
  · have hfit : (visual_width (clipLoop w s.data "" ++ ellipsis) : Int) ≤ w := by
      apply clipLoop_inv
      have h1 : visual_width ((("" : String)) ++ ellipsis) = 1 := by decide
      rw [h1]
      omega
    rcases clipTrunc_cases hfit with ⟨hneg, hlen⟩ | hpos
    · rw [visual_width_of_nonpos (by omega), hlen]
    · rw [visual_width_of_pos (by omega), hpos]
  · have hz : w = 0 := by omega
    rw [hz]
    decide

end ReadmeChat.AsciiEngine

namespace ReadmeChat.ScriptsRenderChat

open ReadmeChat.Py

/-! ## Totality of the old renderer at its default configuration -/

/-- At the default configuration every computed f-string pad width is
non-negative, so `render_chat_interface` succeeds for every comment list,
every repository owner, every issue number and every timestamp parser. -/
theorem renderOld_default_isOk (comments : List OldComment)
    (parse : String → Option HM) (owner issue : String) :
    (renderChatInterfaceLines defaultConfig owner issue parse comments).isOk
      = true := by
  by_cases hc : comments = []
  · subst hc
    rfl
  · unfold renderChatInterfaceLines
    simp only [if_neg hc]
    rfl

end ReadmeChat.ScriptsRenderChat

namespace ReadmeChat.HtmlEngine

open ReadmeChat.Py ReadmeChat.ScriptsRenderChat

/-! ## Totality of the markup backend under a valid environment -/

/-- Chaining an `Except` computation known to succeed. -/
theorem chainOk {α β : Type} {x : Except String α} (f : α → Except String β)
    {a : α} (hx : x = .ok a) (hf : (f a).isOk = true) :
    (x >>= f).isOk = true := by
  rw [hx]
  exact hf

/-- `mapM` of a function that succeeds on every element succeeds. -/
theorem mapM_ok {α β : Type} (f : α → Except String β) :
    ∀ (l : List α), (∀ a ∈ l, ∃ b, f a = .ok b) → ∃ bs, l.mapM f = .ok bs := by
  intro l
  induction l with
  | nil => intro _; exact ⟨[], rfl⟩
  | cons a t ih =>
    intro h
    obtain ⟨b, hb⟩ := h a (List.mem_cons_self a t)
    obtain ⟨bs, hbs⟩ := ih (fun x hx => h x (List.mem_cons_of_mem a hx))
    refine ⟨b :: bs, ?_⟩
    rw [List.mapM_cons, hb, hbs]
    rfl

/-- `get_repo_path` succeeds when the stripped owner and name are
well-formed GitHub names. -/
theorem get_repo_path_ok {env : Env}
    (ho : githubNameOk (pyStrip env.repoOwner) = true)
    (hn : githubNameOk (pyStrip env.repoName) = true) :
    get_repo_path env
      = .ok (pyStrip env.repoOwner ++ "/" ++ pyStrip env.repoName) := by
  unfold get_repo_path
  have ho' : ¬(pyStrip env.repoOwner = "") := by
    intro h
    rw [h] at ho
    exact absurd ho (by decide)
  have hn' : ¬(pyStrip env.repoName = "") := by
    intro h
    rw [h] at hn
    exact absurd hn (by decide)
  rw [if_neg (by tauto), if_neg (by simp [ho, hn])]

/-- With avatars disabled (the default configuration), building one
message's parts never fails. -/
theorem messageParts_ok (env : Env) (parse : String → Option HM)
    (rel : HM → String) (issue : String) (c : HtmlComment) :
    ∃ r, messageParts env defaultHtmlConfig parse rel issue c = .ok r :=
  ⟨_, rfl⟩

/-- With the default configuration and a valid repository environment,
`create_html_chat_interface` succeeds on every comment list. -/
theorem createHtml_default_isOk (env : Env)
    (ho : githubNameOk (pyStrip env.repoOwner) = true)
    (hn : githubNameOk (pyStrip env.repoName) = true)
    (comments : List HtmlComment) (title issue : String)
    (parse : String → Option HM) (rel : HM → String) (nowTime : String) :
    (create_html_chat_interface env comments defaultHtmlConfig title issue
      parse rel nowTime).isOk = true := by
  have hp := get_repo_path_ok ho hn
  unfold create_html_chat_interface
  by_cases hc : comments = []
  · rw [if_pos hc]
    refine chainOk _ rfl ?_
    exact chainOk _ hp rfl
  · rw [if_neg hc]
    obtain ⟨bs, hbs⟩ := mapM_ok (messageParts env defaultHtmlConfig parse rel issue)
      comments (fun c _ => messageParts_ok env parse rel issue c)
    refine chainOk _ hbs ?_
    refine chainOk _ rfl ?_
    exact chainOk _ hp rfl

end ReadmeChat.HtmlEngine

namespace ReadmeChat.HtmlEngine

open ReadmeChat.Py

/-! ## `escape_html` leaves no markup-significant character in its output -/

/-- The characters of a `String.join` are the flattened characters of the
parts. -/
theorem join_data (l : List String) :
    (String.join l).data = (l.map String.data).flatten := by
  suffices h : ∀ (s : String),
      (l.foldl (· ++ ·) s).data = s.data ++ (l.map String.data).flatten by
    simpa [String.join] using h ""
  induction l with
  | nil => intro s; simp
  | cons a t ih =>
    intro s
    rw [List.foldl_cons, ih]
    simp [String.data_append]

/-- No single-character replacement emits a markup-significant character. -/
theorem escapeChar_clean (c : Char) :
    (escapeChar c).data.all (fun x => !escBad x) = true := by
  unfold escapeChar
  split_ifs with h1 h2 h3 h4 h5
  · decide
  · decide
  · decide
  · decide
  · decide
  · have hs : (String.singleton c).data = [c] := rfl
    rw [hs]
    simp [escBad, h2, h3, h4, h5]

/-- Character-list form of the cleanliness of `escape_html`. -/
theorem escListClean (l : List Char) :
    ((l.map escapeChar).map String.data).flatten.all (fun x => !escBad x)
      = true := by
  induction l with
  | nil => rfl
  | cons c cs ih =>
    simp only [List.map_cons, List.flatten_cons, List.all_append]
    rw [Bool.and_eq_true]
    exact ⟨escapeChar_clean c, ih⟩

/-- `escape_html` never leaves `<`, `>`, `"` or `'` in its output, for any
input string. -/
theorem escape_html_clean (s : String) :
    (escape_html s).data.all (fun x => !escBad x) = true := by
  unfold escape_html
  split_ifs with h
  · rfl
  · rw [join_data]
    exact escListClean s.data

end ReadmeChat.HtmlEngine

namespace ReadmeChat.HtmlEngine

open ReadmeChat.Py

/-- `format_message_content` with its local `let`s unfolded (definitional). -/
theorem format_message_content_def (env : Env) (content : String)
    (maxLines : Nat) (issueNumber : String) :
    format_message_content env content maxLines issueNumber =
      if content = "" ∨ pyStrip content = "" then "<em>Empty message</em>"
      else if maxLines < (pySplitNl (normalizeContent content)).length ∧ 0 < maxLines then
        match get_repo_path env with
        | .ok repoPath =>
          escape_html (String.intercalate "\n"
              ((pySplitNl (normalizeContent content)).take (maxLines - 1)))
            ++ seeFullSuffix repoPath issueNumber
        | .error e => "<em>Error formatting message: " ++ escape_html e ++ "</em>"
      else pyReplace (escape_html (normalizeContent content)) "\n" "<br>" := rfl

end ReadmeChat.HtmlEngine

section Claims

open ReadmeChat

/-- C1 (amended): width invariant of the text backend.  In
`ascii_engine.py`, for every comment list, every canvas width `W ≥ 2`,
every title, issue number, line cap and injected clock reading, every line
assembled by `create_chat_interface` has display width (the engine's own
`visual_width` measure) exactly `W`.  (The old `scripts/render_chat.py`
renderer violates the invariant — see the counterexample.) -/
theorem c1_ascii_width_invariant (comments : List AsciiEngine.Comment)
    (W : Int) (hw : 2 ≤ W) (title issue : String) (maxL : Nat)
    (tH tB : String) :
    ∀ l ∈ AsciiEngine.createChatInterfaceLines comments W title issue maxL tH tB,
      (AsciiEngine.visual_width l : Int) = W :=
  AsciiEngine.createChatInterfaceLines_vw hw comments title issue maxL tH tB

/-- Witness for C1: the top border of the default 50-column canvas measures
exactly 50. -/
theorem c1_width_witness :
    (AsciiEngine.visual_width (AsciiEngine._border 50 '-') : Int) = 50 :=
  c1_ascii_width_invariant [] 50 (by decide) "#chat" "1" 4 "12:00:00" "12:00"
    (AsciiEngine._border 50 '-') (by decide)

/-- Counterexample for C1: the other text renderer named by the claim,
`render_chat_interface` of `scripts/render_chat.py`, pads by character
count, so at its default 50-column configuration the header line holding
the 💬 emoji (display width 2, one character) occupies 51 display columns. -/
theorem c1_width_counterexample :
    ScriptsRenderChat.defaultConfig.chat_width = 50 ∧
    (ScriptsRenderChat.renderChatInterfaceLines ScriptsRenderChat.defaultConfig
        "keethesh" "1" ScriptsRenderChat.noParse []).map
      (fun ls => (ls.get? 1).map (fun s => (AsciiEngine.visual_width s : Int)))
      = .ok (some 51) :=
  ⟨rfl, rfl⟩

/-- C2 (amended): for every option set with `break_long_words`, every
budget `width ≥ 1` and every text, every line returned by `textwrap.wrap`
has at most `width` characters (code points).  The display-width reading of
the claim is refuted by the counterexample. -/
theorem c2_wrap_length_bound {opts : PyTextwrap.Opts}
    (hbl : opts.breakLongWords = true) {w : Nat} (hw : 1 ≤ w)
    (text : String) :
    ∀ l ∈ PyTextwrap.wrap opts text w, l.length ≤ w :=
  PyTextwrap.wrap_bound hbl hw text

/-- Witness for C2: wrapping "hello world" at width 5 keeps "hello" within
5 characters. -/
theorem c2_wrap_witness : ("hello" : String).length ≤ 5 :=
  c2_wrap_length_bound (show PyTextwrap.asciiOpts.breakLongWords = true from rfl)
    (show (1 : Nat) ≤ 5 by decide) "hello world" "hello" (by decide)

/-- Counterexample for C2: wrapping the all-wide body at budget 10 returns
a first line of 10 characters but 20 display columns — the wrapper counts
code points, not columns. -/
theorem c2_wrap_counterexample :
    (PyTextwrap.wrap PyTextwrap.asciiOpts "日本語のテストメッセージです" 10).head?
      = some "日本語のテストメッセ" ∧
    10 < AsciiEngine.visual_width "日本語のテストメッセ" := by
  decide

/-- C3 (amended): `_clip` hits the requested width exactly for every
`width ≥ 0` whenever the input is empty, has nonzero `wcswidth`, or is at
least `width` code points long.  (For a nonempty string of `wcswidth` 0 and
fewer than `width` code points the padding is measured with the fallback
length and under-fills — see the counterexample.) -/
theorem c3_clip_exact (s : String) (w : Int) (hw : 0 ≤ w)
    (hcond : s = "" ∨ wcswidth s ≠ 0 ∨ w ≤ (s.length : Int)) :
    (AsciiEngine.visual_width (AsciiEngine._clip s w) : Int) = w := by
  rcases hcond with hs | hs | hs
  · exact AsciiEngine.clip_vw hw (Or.inr hs)
  · exact AsciiEngine.clip_vw hw (Or.inl hs)
  · by_cases hz : wcswidth s = 0
    · have hvw : AsciiEngine.visual_width s = s.length :=
        AsciiEngine.visual_width_of_nonpos (le_of_eq hz)
    
      by_cases hle : (AsciiEngine.visual_width s : Int) ≤ w
      · have hn : (w - (AsciiEngine.visual_width s : Int)).toNat = 0 := by
          rw [hvw] at hle
          omega
        rw [AsciiEngine.clip_of_fits hle, hn]
        have h0 : wcswidth (s ++ Py.spaces 0) = 0 := by
          rw [AsciiEngine.wcswidth_append_spaces (le_of_eq hz.symm), hz]
          simp
        rw [AsciiEngine.visual_width_of_nonpos (le_of_eq h0),
          AsciiEngine.str_length_append, length_spaces]
        rw [hvw] at hle
        push_cast
        omega
      · exact AsciiEngine.clip_vw_overflow hw (by omega)
    · exact AsciiEngine.clip_vw hw (Or.inl hz)

/-- Witness for C3: clipping "abc" to width 5 measures exactly 5. -/
theorem c3_clip_witness :
    (AsciiEngine.visual_width (AsciiEngine._clip "abc" 5) : Int) = 5 :=
  c3_clip_exact "abc" 5 (by decide) (Or.inr (Or.inl (by decide)))

/-- Counterexample for C3: the lone combining acute accent has `wcswidth`
0, so `_clip` measures it by its length 1 and pads to 2 characters — but
the result occupies 1 display column, not the requested 2. -/
theorem c3_clip_counterexample :
    wcswidth "́" = 0 ∧ AsciiEngine._clip "́" 2 = "́ " ∧
    (AsciiEngine.visual_width (AsciiEngine._clip "́" 2) : Int) = 1 ∧
    (1 : Int) ≠ 2 := by
  decide

/-- C4 (amended): total rendering holds only away from the failure points.
The old renderer is total at its shipped default configuration (for every
comment list, parser, owner and issue number), and the markup backend is
total under a well-formed repository environment; narrower configurations
or an ill-formed environment raise (see the counterexample, which also
shows a failing message being skipped without any placeholder). -/
theorem c4_total_at_defaults :
    (∀ (comments : List ScriptsRenderChat.OldComment)
        (parse : String → Option ScriptsRenderChat.HM) (owner issue : String),
      (ScriptsRenderChat.renderChatInterfaceLines ScriptsRenderChat.defaultConfig
        owner issue parse comments).isOk = true) ∧
    (∀ (env : HtmlEngine.Env),
      HtmlEngine.githubNameOk (Py.pyStrip env.repoOwner) = true →
      HtmlEngine.githubNameOk (Py.pyStrip env.repoName) = true →
      ∀ (comments : List HtmlEngine.HtmlComment) (title issue : String)
        (parse : String → Option ScriptsRenderChat.HM)
        (rel : ScriptsRenderChat.HM → String) (nowTime : String),
      (HtmlEngine.create_html_chat_interface env comments
        HtmlEngine.defaultHtmlConfig title issue parse rel nowTime).isOk = true) :=
  ⟨fun comments parse owner issue =>
      ScriptsRenderChat.renderOld_default_isOk comments parse owner issue,
    fun env ho hn comments title issue parse rel nowTime =>
      HtmlEngine.createHtml_default_isOk env ho hn comments title issue
        parse rel nowTime⟩

/-- Witness for C4: the markup backend succeeds on the default environment
with no comments. -/
theorem c4_total_witness :
    (HtmlEngine.create_html_chat_interface ⟨"keethesh", "keethesh"⟩ []
      HtmlEngine.defaultHtmlConfig "#chat" "1" ScriptsRenderChat.noParse
      (fun _ => "") "12:00:00").isOk = true :=
  c4_total_at_defaults.2 ⟨"keethesh", "keethesh"⟩ (by decide) (by decide) []
    "#chat" "1" ScriptsRenderChat.noParse (fun _ => "") "12:00:00"

/-- Counterexample for C4: a 20-column configuration makes the old
renderer raise (negative f-string pad width); at 32 columns the message
bubble raises and the comment is skipped with no placeholder (8 lines =
header + footer only, none containing the message text); an empty
repository owner makes the markup backend raise. -/
theorem c4_total_counterexample :
    (ScriptsRenderChat.renderChatInterfaceLines ⟨20, 38, 10, "#builders-chat"⟩
      "keethesh" "1" ScriptsRenderChat.noParse
      [⟨"alice", "hi", "", "NONE"⟩]).isOk = false ∧
    (ScriptsRenderChat.renderChatInterfaceLines ⟨32, 38, 10, "#builders-chat"⟩
      "keethesh" "1" ScriptsRenderChat.noParse
      [⟨"alice", "aaaaaaaaaaaaaaaaaaaaaaaaaaaaaaaaaa", "", "NONE"⟩]).map
        (fun ls => (ls.length, ls.all (fun l => !Py.pyIn "aaa" l)))
      = .ok (8, true) ∧
    (HtmlEngine.create_html_chat_interface ⟨"", "keethesh"⟩ []
      HtmlEngine.defaultHtmlConfig "#chat" "1" ScriptsRenderChat.noParse
      (fun _ => "") "12:00:00").isOk = false :=
  ⟨rfl, rfl, rfl⟩

/-- C5 (confirmed): truncation policy.  The ascii engine keeps a wrapped
body unchanged when it has at most `max_lines` lines, and otherwise keeps
exactly the first `max_lines - 1` lines plus one indicator line naming the
issue, so the body never exceeds `max_lines` lines; the markup backend does
the same on the split lines of the normalized body, appending a link into
the issue. -/
theorem c5_truncation_policy :
    (∀ (wrapped : List String) (m : Nat) (issue : String), 1 ≤ m →
      (wrapped.length ≤ m →
        AsciiEngine.truncateWrapped wrapped m issue = wrapped) ∧
      (m < wrapped.length →
        AsciiEngine.truncateWrapped wrapped m issue
          = wrapped.take (m - 1) ++
            ["[… see more at Issue #" ++ issue ++ "] <typing…>"]) ∧
      (AsciiEngine.truncateWrapped wrapped m issue).length ≤ m) ∧
    (∀ (env : HtmlEngine.Env) (content : String) (m : Nat) (issue : String),
      Py.pyStrip content ≠ "" →
      ((Py.pySplitNl (HtmlEngine.normalizeContent content)).length ≤ m ∨ m = 0 →
        HtmlEngine.format_message_content env content m issue
          = Py.pyReplace
              (HtmlEngine.escape_html (HtmlEngine.normalizeContent content))
              "\n" "<br>") ∧
      (∀ (rp : String),
        m < (Py.pySplitNl (HtmlEngine.normalizeContent content)).length →
        0 < m → HtmlEngine.get_repo_path env = .ok rp →
        HtmlEngine.format_message_content env content m issue
          = HtmlEngine.escape_html (String.intercalate "\n"
              ((Py.pySplitNl (HtmlEngine.normalizeContent content)).take (m - 1)))
            ++ HtmlEngine.seeFullSuffix rp issue)) := by
  constructor
  · intro wrapped m issue hm
    unfold AsciiEngine.truncateWrapped
    refine ⟨?_, ?_, ?_⟩
    · intro hle
      rw [if_neg (by omega)]
    · intro hlt
      rw [if_pos hlt]
    · split_ifs with h
      · simp only [List.length_append, List.length_take, List.length_cons,
          List.length_nil]
        omega
      · omega
  · intro env content m issue hne
    have hne2 : ¬(content = "" ∨ Py.pyStrip content = "") := by
      rintro (h | h)
      · rw [h] at hne
        exact hne rfl
      · exact hne h
    constructor
    · intro hle
      rw [HtmlEngine.format_message_content_def, if_neg hne2,
        if_neg (by rintro ⟨h1, h2⟩; omega)]
    · intro rp hlt hz hrp
      rw [HtmlEngine.format_message_content_def, if_neg hne2,
        if_pos ⟨hlt, hz⟩, hrp]

/-- Witness for C5: truncating the three-line body "a\nb\nc" to 2 lines in
the markup backend keeps line "a" and appends the issue link. -/
theorem c5_truncation_witness :
    HtmlEngine.format_message_content ⟨"keethesh", "keethesh"⟩ "a\nb\nc" 2 "7"
      = HtmlEngine.escape_html "a"
        ++ HtmlEngine.seeFullSuffix "keethesh/keethesh" "7" :=
  (c5_truncation_policy.2 ⟨"keethesh", "keethesh"⟩ "a\nb\nc" 2 "7"
    (by decide)).2 "keethesh/keethesh" (by decide) (by decide) rfl

/-- C6 (amended): the composer is a pure function of its inputs once the
clock readings are injected, and the header clock reading is confined to
the one header meta line: for any two header times the assembled line lists
agree on the first two lines, on everything from the fourth line on, and in
length.  (The claim's "single embedded current-time field" is refuted: the
clock is also read once per message bubble and stamped into every prompt —
see the counterexample.) -/
theorem c6_header_time_locality :
    ∀ (comments : List AsciiEngine.Comment) (W : Int) (title issue : String)
      (maxL : Nat) (t1 t2 tB : String),
      ((AsciiEngine.createChatInterfaceLines comments W title issue maxL t1 tB).take 2
        = (AsciiEngine.createChatInterfaceLines comments W title issue maxL t2 tB).take 2) ∧
      ((AsciiEngine.createChatInterfaceLines comments W title issue maxL t1 tB).drop 3
        = (AsciiEngine.createChatInterfaceLines comments W title issue maxL t2 tB).drop 3) ∧
      ((AsciiEngine.createChatInterfaceLines comments W title issue maxL t1 tB).length
        = (AsciiEngine.createChatInterfaceLines comments W title issue maxL t2 tB).length) :=
  fun _ _ _ _ _ _ _ _ => ⟨rfl, rfl, rfl⟩

/-- Counterexample for C6: two renders of the same single-message chat at
different clock readings differ in at least two lines — the header meta
line (index 2) and a message prompt line (index 13) — not in a single
embedded current-time field. -/
theorem c6_time_counterexample :
    ((AsciiEngine.createChatInterfaceLines [⟨"alice", "hello there", "", false⟩]
        50 "#readme-chat" "1" 4 "10:00:00" "10:00").get? 2
      ≠ (AsciiEngine.createChatInterfaceLines [⟨"alice", "hello there", "", false⟩]
        50 "#readme-chat" "1" 4 "11:11:11" "11:11").get? 2) ∧
    ((AsciiEngine.createChatInterfaceLines [⟨"alice", "hello there", "", false⟩]
        50 "#readme-chat" "1" 4 "10:00:00" "10:00").get? 13
      ≠ (AsciiEngine.createChatInterfaceLines [⟨"alice", "hello there", "", false⟩]
        50 "#readme-chat" "1" 4 "11:11:11" "11:11").get? 13) := by
  decide

/-- C7 (amended): for a body that is empty or all whitespace, the old
renderer's wrapper and the markup backend substitute their fixed
placeholders, and `_sanitize_message` does so for the empty body.  (The
ascii engine renders no placeholder — see the counterexample.) -/
theorem c7_empty_placeholder (s : String) (w m : Nat) (issue : String)
    (env : HtmlEngine.Env) (h : Py.pyStrip s = "") :
    ScriptsRenderChat.wrap_message s w = ["(empty message)"] ∧
    HtmlEngine.format_message_content env s m issue = "<em>Empty message</em>" ∧
    ScriptsRenderChat._sanitize_message "" = "(empty message)" := by
  refine ⟨?_, ?_, rfl⟩
  · unfold ScriptsRenderChat.wrap_message
    rw [if_pos (Or.inr h)]
  · rw [HtmlEngine.format_message_content_def, if_pos (Or.inr h)]

/-- Witness for C7: the placeholders appear for the all-whitespace body
" ". -/
theorem c7_empty_witness :
    ScriptsRenderChat.wrap_message " " 30 = ["(empty message)"] ∧
    HtmlEngine.format_message_content ⟨"keethesh", "keethesh"⟩ " " 6 "1"
      = "<em>Empty message</em>" ∧
    ScriptsRenderChat._sanitize_message "" = "(empty message)" :=
  c7_empty_placeholder " " 30 6 "1" ⟨"keethesh", "keethesh"⟩ (by decide)

/-- Counterexample for C7: the ascii engine's bubble for an empty body is
the bare prompt line with no "(empty message)" placeholder anywhere. -/
theorem c7_empty_counterexample :
    AsciiEngine._create_message_bubble "" "alice" "" false 40 4 "1" "12:00"
      = ["[12:00] alice@github:~$ # " ++ Py.spaces 14] ∧
    Py.pyIn "(empty message)" ("[12:00] alice@github:~$ # " ++ Py.spaces 14)
      = false := by
  decide

/-- C8 (amended): the non-ascii renderers never propagate a timestamp
parse failure: the old renderer substitutes "??:??" and otherwise formats
the parsed message time, the markup backend substitutes the empty string
and otherwise formats the parsed message time; the ascii engine instead
ignores the message timestamp entirely (its bubble is unchanged under any
change of the timestamp argument) and stamps the injected current time. -/
theorem c8_timestamp_fallback (parse : String → Option ScriptsRenderChat.HM)
    (rel : ScriptsRenderChat.HM → String) (ts : String)
    (d : ScriptsRenderChat.HM) :
    (parse ts = none →
      ScriptsRenderChat.format_timestamp parse ts = "??:??") ∧
    (parse ts = some d →
      ScriptsRenderChat.format_timestamp parse ts
        = ScriptsRenderChat.strftimeHM d) ∧
    (parse ts = none → HtmlEngine._format_timestamp parse rel ts false = "") ∧
    (ts ≠ "" → parse ts = some d →
      HtmlEngine._format_timestamp parse rel ts false
        = ScriptsRenderChat.strftimeHM d) ∧
    (∀ (content u ts1 ts2 : String) (o : Bool) (W : Int) (maxL : Nat)
        (issue tB : String),
      AsciiEngine._create_message_bubble content u ts1 o W maxL issue tB
        = AsciiEngine._create_message_bubble content u ts2 o W maxL issue tB) := by
  refine ⟨?_, ?_, ?_, ?_, fun _ _ _ _ _ _ _ _ _ => rfl⟩
  · intro h
    unfold ScriptsRenderChat.format_timestamp
    rw [h]
  · intro h
    unfold ScriptsRenderChat.format_timestamp
    rw [h]
  · intro h
    unfold HtmlEngine._format_timestamp
    by_cases hts : ts = ""
    · rw [if_pos hts]
    · rw [if_neg hts, h]
  · intro hts h
    unfold HtmlEngine._format_timestamp
    rw [if_neg hts, h]
    rfl

/-- Counterexample for C8: the ascii bubble renders the same lines for two
different (parsable) message timestamps, and its first line stamps the
injected current time 09:58, not a time derived from the message's
timestamp. -/
theorem c8_timestamp_counterexample :
    (AsciiEngine._create_message_bubble "hi" "u" "2024-07-22T10:23:00Z" false
        40 4 "1" "09:58"
      = AsciiEngine._create_message_bubble "hi" "u" "1999-12-31T23:59:59Z" false
        40 4 "1" "09:58") ∧
    (AsciiEngine._create_message_bubble "hi" "u" "2024-07-22T10:23:00Z" false
        40 4 "1" "09:58").head?
      = some ("[09:58] u@github:~$ # hi" ++ Py.spaces 16) :=
  ⟨rfl, by decide⟩

/-- C9 (confirmed): the markup backend escapes user content.  `escape_html`
never leaves `<`, `>`, `"` or an apostrophe in its output, for any input
string; and on a hostile comment whose author is `eve"<x>` and whose body
is `<script>alert("x")&`, the full `create_html_chat_interface` output
contains neither the substring `<script>` nor the substring `eve"`. -/
theorem c9_escaping :
    (∀ (s : String),
      (HtmlEngine.escape_html s).data.all (fun x => !HtmlEngine.escBad x) = true) ∧
    (HtmlEngine.create_html_chat_interface ⟨"keethesh", "keethesh"⟩
      [⟨"eve\x22<x>", "<script>alert(\x22x\x22)&", "", false, []⟩]
      HtmlEngine.defaultHtmlConfig "#chat" "1" ScriptsRenderChat.noParse
      (fun _ => "") "12:00:00").map
        (fun out => Py.pyIn "<script>" out || Py.pyIn "eve\x22" out)
      = .ok false :=
  ⟨HtmlEngine.escape_html_clean, rfl⟩

/-- C10 (amended): the ascii bubble always has at least one line, for every
content (including empty), width and line cap; whenever the prompt plus the
first wrapped segment fits the canvas, the first line is exactly the prompt
followed by that segment and padding (so it begins with the author's
identity prompt); and the owner and non-owner prompts are distinct strings.
(At widths too narrow for the prompt the first line is truncated and need
not contain the username, and the two prompt formats clip to the same line
— see the counterexample.) -/
theorem c10_bubble_shape (content u ts : String) (o : Bool) (W : Int)
    (maxL : Nat) (issue tB : String) :
    (1 ≤ (AsciiEngine._create_message_bubble content u ts o W maxL issue tB).length) ∧
    (∀ (s0 : String) (tl : List String),
      AsciiEngine.truncateWrapped
          (AsciiEngine.wrapParagraphs content
            (max 1 (W - (AsciiEngine.visual_width
              (AsciiEngine.basePrompt tB u o) : Int))).toNat)
          maxL issue = s0 :: tl →
      (AsciiEngine.visual_width (AsciiEngine.basePrompt tB u o ++ s0) : Int) ≤ W →
      (AsciiEngine._create_message_bubble content u ts o W maxL issue tB).head?
        = some (AsciiEngine.basePrompt tB u o
            ++ (s0 ++ Py.spaces ((W - (AsciiEngine.visual_width
                  (AsciiEngine.basePrompt tB u o ++ s0) : Int)).toNat)))) ∧
    AsciiEngine.basePrompt tB u true ≠ AsciiEngine.basePrompt tB u false := by
  refine ⟨?_, ?_, AsciiEngine.basePrompt_distinct tB u⟩
  · exact List.length_pos.mpr
      (AsciiEngine.bubble_ne content u ts o W maxL issue tB)
  · intro s0 tl htr hfit
    have hh := AsciiEngine.bubble_head content u ts o W maxL issue tB htr
    rw [AsciiEngine.clip_of_fits hfit, String.append_assoc] at hh
    exact hh

/-- Witness for C10: for "hi" from bob on a 40-column canvas the first
line is the non-owner prompt, the segment and padding. -/
theorem c10_bubble_witness :
    (AsciiEngine._create_message_bubble "hi" "bob" "" false 40 4 "1" "10:00").head?
      = some (AsciiEngine.basePrompt "10:00" "bob" false
          ++ ("hi" ++ Py.spaces 14)) :=
  (c10_bubble_shape "hi" "bob" "" false 40 4 "1" "10:00").2.1 "hi" []
    (by decide) (by decide)

/-- Counterexample for C10: on an 8-column canvas the owner and non-owner
bubbles coincide and the first line "[12:00]…" does not contain the
author's username. -/
theorem c10_bubble_counterexample :
    (AsciiEngine._create_message_bubble "hi" "alice" "" true 8 4 "1" "12:00"
      = AsciiEngine._create_message_bubble "hi" "alice" "" false 8 4 "1" "12:00") ∧
    (AsciiEngine._create_message_bubble "hi" "alice" "" true 8 4 "1" "12:00").head?
      = some "[12:00]…" ∧
    Py.pyIn "alice" "[12:00]…" = false := by
  decide

end Claims
